import Mathlib

set_option maxRecDepth 100000

/-!
Verification of the smoothexit migration engine against its specification.

This file gives a shallow embedding, in Lean 4, of the parts of the code base
that the checked claims are about: the runtime value model used by the Python
implementation, the transformation engine (`app/services/transformer.py`), the
record validator (`app/services/validator.py`), the schema registry's mapping
validation (`app/services/schema_registry.py`) and the orchestrator's
deduplication pass (`app/orchestrator.py`).  Pure functions of the source are
translated into Lean functions; Python exceptions become `Except` results;
Python `None` is the `Val.none` constructor, mirroring the language's use of
`None` both as an absent marker and as a first-class value.
-/

namespace SmoothExit

/-- Model of a Python runtime value as it flows through the migration engine:
JSON-style data plus `None`.  Floats are modelled as rationals, which is exact
on the integral values the verified code paths produce. -/
inductive Val where
  | none
  | bool (b : Bool)
  | int (n : Int)
  | float (q : Rat)
  | str (s : String)
  | list (xs : List Val)
  | dict (kvs : List (Val × Val))

/-- A Python dictionary body: key/value pairs in insertion order. -/
abbrev Dct := List (Val × Val)

mutual

/-- Structural (syntactic) equality of values. -/
def Val.beq : Val → Val → Bool
  | .none, .none => true
  | .bool a, .bool b => a == b
  | .int a, .int b => a == b
  | .float a, .float b => a == b
  | .str a, .str b => a == b
  | .list xs, .list ys => Val.beqList xs ys
  | .dict xs, .dict ys => Val.beqDict xs ys
  | _, _ => false

def Val.beqList : List Val → List Val → Bool
  | [], [] => true
  | a :: as, b :: bs => Val.beq a b && Val.beqList as bs
  | _, _ => false

def Val.beqDict : List (Val × Val) → List (Val × Val) → Bool
  | [], [] => true
  | (k, v) :: as, (k', v') :: bs =>
      Val.beq k k' && Val.beq v v' && Val.beqDict as bs
  | _, _ => false

end

namespace Val

/-- Python truthiness (`if value:`). -/
def truthy : Val → Bool
  | .none => false
  | .bool b => b
  | .int n => n != 0
  | .float q => q != 0
  | .str s => s != ""
  | .list xs => !xs.isEmpty
  | .dict kvs => !kvs.isEmpty

/-- Numeric view of a value: Python `bool` is a subclass of `int`, and `int`
and `float` compare and combine numerically. -/
def toNum? : Val → Option Rat
  | .bool b => some (if b then 1 else 0)
  | .int n => some (n : Rat)
  | .float q => some q
  | _ => Option.none

/-- `value is None`. -/
def isNone : Val → Bool
  | .none => true
  | _ => false

/-- `isinstance(v, dict)`. -/
def isDict : Val → Bool
  | .dict _ => true
  | _ => false

/-- `isinstance(v, list)`. -/
def isList : Val → Bool
  | .list _ => true
  | _ => false

/-- `isinstance(v, str)`. -/
def isStr : Val → Bool
  | .str _ => true
  | _ => false

end Val

mutual

/-- Python `==`.  Numbers (including booleans) compare by value across types;
dictionary comparison is modelled in insertion order, which agrees with Python
on the scalar comparisons the verified code paths perform. -/
def pyEq : Val → Val → Bool
  | .none, .none => true
  | .str a, .str b => a == b
  | .list xs, .list ys => pyEqList xs ys
  | .dict xs, .dict ys => pyEqDict xs ys
  | a, b =>
      match a.toNum?, b.toNum? with
      | some x, some y => x == y
      | _, _ => false

def pyEqList : List Val → List Val → Bool
  | [], [] => true
  | a :: as, b :: bs => pyEq a b && pyEqList as bs
  | _, _ => false

def pyEqDict : Dct → Dct → Bool
  | [], [] => true
  | (k, v) :: as, (k', v') :: bs => pyEq k k' && pyEq v v' && pyEqDict as bs
  | _, _ => false

end

/-- The ASCII single-quote character used by Python `repr` of strings. -/
def squote : String := String.singleton (Char.ofNat 39)

/-! Structural character-list implementations of the string operations the
embedded code uses (Lean's position-based `String` primitives do not reduce
in the kernel; these do, with identical behavior on the inputs the code
meets). -/

/-- Prefix test on character lists. -/
def isPrefixList : List Char → List Char → Bool
  | [], _ => true
  | _ :: _, [] => false
  | a :: as, b :: bs => a == b && isPrefixList as bs

/-- Python `s.startswith(p)`. -/
def strStartsWith (s p : String) : Bool := isPrefixList p.toList s.toList

/-- Python `s.endswith(p)`. -/
def strEndsWith (s p : String) : Bool :=
  isPrefixList p.toList.reverse s.toList.reverse

/-- Split at every occurrence of the (non-empty) separator; the fuel is an
upper bound on the characters scanned, so `length` fuel is always enough. -/
def splitFuel (sep : List Char) : Nat → List Char → List (List Char)
  | _, [] => [[]]
  | 0, l => [l]
  | fuel + 1, c :: rest =>
      if isPrefixList sep (c :: rest) && !sep.isEmpty then
        [] :: splitFuel sep fuel (List.drop (sep.length - 1) rest)
      else
        match splitFuel sep fuel rest with
        | [] => [[c]]
        | h :: t => (c :: h) :: t

/-- Python `s.split(sep)` for a non-empty separator (the only way the code
calls it). -/
def pySplitOn (s sep : String) : List String :=
  if sep.isEmpty then [s]
  else (splitFuel sep.toList s.toList.length s.toList).map String.mk

/-- Occurrence test on character lists. -/
def containsList (sep : List Char) : List Char → Bool
  | [] => sep.isEmpty
  | c :: rest => isPrefixList sep (c :: rest) || containsList sep rest

/-- Replace every occurrence of the (non-empty) pattern. -/
def replaceFuel (pat repl : List Char) : Nat → List Char → List Char
  | _, [] => []
  | 0, l => l
  | fuel + 1, c :: rest =>
      if isPrefixList pat (c :: rest) && !pat.isEmpty then
        repl ++ replaceFuel pat repl fuel (List.drop (pat.length - 1) rest)
      else c :: replaceFuel pat repl fuel rest

/-- Python `s.replace(pat, repl)` for a non-empty pattern. -/
def pyReplace (s pat repl : String) : String :=
  if pat.isEmpty then s
  else String.mk (replaceFuel pat.toList repl.toList s.toList.length s.toList)

/-- Python `s.lower()` (ASCII, as the code's inputs are). -/
def lowerStr (s : String) : String := String.mk (s.toList.map Char.toLower)

/-- Python `s.upper()`. -/
def upperStr (s : String) : String := String.mk (s.toList.map Char.toUpper)

/-- Python `s.strip()`. -/
def pyTrim (s : String) : String :=
  String.mk
    (((s.toList.dropWhile Char.isWhitespace).reverse.dropWhile
      Char.isWhitespace).reverse)

/-- Decimal rendering of a Python float; exact on integral values, which are
the only floats the verified code paths print. -/
def floatRepr (q : Rat) : String :=
  if q.den == 1 then toString q.num ++ ".0" else toString q

mutual

/-- Python `repr`. -/
def reprV : Val → String
  | .none => "None"
  | .bool b => if b then "True" else "False"
  | .int n => toString n
  | .float q => floatRepr q
  | .str s => squote ++ s ++ squote
  | .list xs => "[" ++ reprList xs ++ "]"
  | .dict kvs => "\x7b" ++ reprDict kvs ++ "\x7d"

def reprList : List Val → String
  | [] => ""
  | [a] => reprV a
  | a :: as => reprV a ++ ", " ++ reprList as

def reprDict : Dct → String
  | [] => ""
  | [(k, v)] => reprV k ++ ": " ++ reprV v
  | (k, v) :: as => reprV k ++ ": " ++ reprV v ++ ", " ++ reprDict as

end

/-- Python `str`. -/
def pyStr : Val → String
  | .str s => s
  | v => reprV v

/-- Python `a or b`. -/
def pyOr (a b : Val) : Val := if a.truthy then a else b

/-- `d.get(k)` on an association-list dictionary (`Option`-valued lookup). -/
def dget? (kvs : Dct) (k : Val) : Option Val :=
  match kvs with
  | [] => Option.none
  | (k', v) :: rest => if pyEq k' k then some v else dget? rest k

/-- `d.get(k)`: `None` when the key is missing. -/
def dget (kvs : Dct) (k : Val) : Val := (dget? kvs k).getD .none

/-- `d.get(k, default)`. -/
def dgetD (kvs : Dct) (k : Val) (dflt : Val) : Val := (dget? kvs k).getD dflt

/-- `k in d`. -/
def dcontains (kvs : Dct) (k : Val) : Bool := (dget? kvs k).isSome

/-- `d[k] = v`: replace in place (keeping insertion order) or append. -/
def dset (kvs : Dct) (k v : Val) : Dct :=
  match kvs with
  | [] => [(k, v)]
  | (k', v') :: rest =>
      if pyEq k' k then (k', v) :: rest else (k', v') :: dset rest k v

/-- String-keyed conveniences for the engine, which builds all its own
dictionaries with string keys. -/
def sget? (kvs : Dct) (k : String) : Option Val := dget? kvs (.str k)

def sget (kvs : Dct) (k : String) : Val := dget kvs (.str k)

def sgetD (kvs : Dct) (k : String) (dflt : Val) : Val := dgetD kvs (.str k) dflt

def sset (kvs : Dct) (k : String) (v : Val) : Dct := dset kvs (.str k) v

/-- `a.update(b)` on dictionaries: `b`'s entries overwrite `a`'s on key
collision.  On a non-dictionary receiver Python raises; the verified call
sites only reach this with dictionaries. -/
def dictUpdate (a b : Val) : Val :=
  match a, b with
  | .dict xs, .dict ys => .dict (ys.foldl (fun acc kv => dset acc kv.1 kv.2) xs)
  | _, _ => a

/-- Python `for x in v`: the sequence iterated over, or a `TypeError`.
Strings iterate over their characters and dictionaries over their keys. -/
def pyIter : Val → Except String (List Val)
  | .list xs => .ok xs
  | .str s => .ok (s.toList.map (fun c => .str (String.singleton c)))
  | .dict kvs => .ok (kvs.map (·.1))
  | _ => .error "TypeError: object is not iterable"

/-- Python substring test used by `x in s` for strings. -/
def strContains (s n : String) : Bool :=
  n.isEmpty || containsList n.toList s.toList

/-- Python `x in c` for the container kinds the engine meets. -/
def pyIn (needle container : Val) : Except String Bool :=
  match container with
  | .dict kvs => .ok (dcontains kvs needle)
  | .list xs => .ok (xs.any (pyEq needle))
  | .str s =>
      match needle with
      | .str n => .ok (strContains s n)
      | _ => .error "TypeError: in <string> requires string"
  | _ => .error "TypeError: argument is not a container"

/-- Python `c[k]` for the subscripting the engine performs (`condition[key]`):
only dictionaries support string subscripts; a missing key is a `KeyError`. -/
def pyIndex (container key : Val) : Except String Val :=
  match container with
  | .dict kvs =>
      match dget? kvs key with
      | some v => .ok v
      | Option.none => .error "KeyError"
  | _ => .error "TypeError: object is not subscriptable"

/-- `s.split(sep, 1)`: split at the first occurrence only. -/
def splitOnce (s sep : String) : List String :=
  match pySplitOn s sep with
  | [] => [s]
  | [x] => [x]
  | x :: rest => [x, String.intercalate sep rest]

/-- `s.strip(chars)`: drop the given characters from both ends. -/
def stripChars (s : String) (cs : List Char) : String :=
  String.mk ((((s.toList.dropWhile (cs.contains ·)).reverse.dropWhile
    (cs.contains ·)).reverse))

/-- `s.isdigit()` (restricted to ASCII digits, as the paths used produce). -/
def isDigitStr (s : String) : Bool :=
  !s.isEmpty && s.toList.all Char.isDigit

/-- A `\w` word character of the array-index pattern. -/
def isWordChar (c : Char) : Bool := c.isAlphanum || c == Char.ofNat 95

/-- Digits-to-number, for strings already checked to be all digits. -/
def digitsToNat (s : String) : Nat :=
  s.toList.foldl (fun acc c => acc * 10 + (c.toNat - 48)) 0

/-- The regular expression `^(\w+)\[(\d+)\]$` of
`TransformEngine._get_nested_value`: a word-character name followed by a
bracketed decimal index. -/
def matchArrayIndex (part : String) : Option (String × Nat) :=
  match pySplitOn part "[" with
  | [name, rest] =>
      if !name.isEmpty && name.toList.all isWordChar && strEndsWith rest "]" then
        let digits := String.mk rest.toList.dropLast
        if isDigitStr digits then some (name, digitsToNat digits) else Option.none
      else Option.none
  | _ => Option.none

/-- Model of Python `float(string)` restricted to plain signed decimal
notation, the only notation the verified code paths feed it. -/
def parseFloat? (s : String) : Option Rat :=
  let t := pyTrim s
  let (sign, body) :=
    if strStartsWith t "-" then ((-1 : Rat), t.drop 1)
    else if strStartsWith t "+" then ((1 : Rat), t.drop 1)
    else ((1 : Rat), t)
  match pySplitOn body "." with
  | [ip] =>
      if isDigitStr ip then some (sign * (digitsToNat ip : Rat)) else Option.none
  | [ip, fp] =>
      if (ip.isEmpty || ip.toList.all Char.isDigit) &&
          (fp.isEmpty || fp.toList.all Char.isDigit) && !(ip.isEmpty && fp.isEmpty) then
        some (sign * ((digitsToNat ip : Rat) +
          (digitsToNat fp : Rat) / ((10 : Rat) ^ fp.length)))
      else Option.none
  | _ => Option.none

/-- Model of Python `float(value)`: `None` means the conversion raises. -/
def pyFloat? : Val → Option Rat
  | .int n => some (n : Rat)
  | .bool b => some (if b then 1 else 0)
  | .float q => some q
  | .str s => parseFloat? s
  | _ => Option.none

/-- `int(q)` on a float: truncation toward zero. -/
def pyIntTrunc (q : Rat) : Int := Int.tdiv q.num (q.den : Int)

/-! ## Civil time (model of `datetime` / `dateutil` used by
`iso_to_unix` / `unix_to_iso`)

`datetime.fromtimestamp` and naive `datetime.timestamp()` convert through the
process-local clock; the model fixes that clock to UTC (a fixed-offset zone,
as on a typically configured server).  The proleptic Gregorian calendar is
implemented from first principles; all recursions are structural so the
kernel can evaluate them. -/

namespace PyTime

def isLeap (y : Nat) : Bool := (y % 4 == 0 && y % 100 != 0) || y % 400 == 0

/-- Month lengths of year `y`, January first. -/
def monthsOf (y : Nat) : List Nat :=
  [31, if isLeap y then 29 else 28, 31, 30, 31, 30, 31, 31, 30, 31, 30, 31]

def yearLen (y : Nat) : Nat := if isLeap y then 366 else 365

/-- Seconds from 0001-01-01T00:00:00 to the Unix epoch (719162 days). -/
def epochShift : Nat := 62135596800

/-- Latest representable `datetime` second: 9999-12-31T23:59:59 UTC. -/
def maxTimestamp : Int := 253402300799

/-- Total days in the years `[y, y + count)`. -/
def daysInYearsAux : Nat → Nat → Nat
  | 0, _ => 0
  | n + 1, y => yearLen y + daysInYearsAux n (y + 1)

/-- Total days in the years `[y, target)`. -/
def daysInYears (y target : Nat) : Nat := daysInYearsAux (target - y) y

/-- Walk whole years off a day count (the year part of
`datetime.fromtimestamp`); fuel bounds the recursion and any fuel
`> number of years consumed` gives the fixed point. -/
def yearWalk : Nat → Nat → Nat → Nat × Nat
  | 0, d, y => (y, d)
  | fuel + 1, d, y =>
      if d < yearLen y then (y, d) else yearWalk fuel (d - yearLen y) (y + 1)

/-- Walk whole months off a day-of-year; returns (month, day-of-month). -/
def monthWalk (d m : Nat) : List Nat → Nat × Nat
  | [] => (m, d + 1)
  | ml :: rest => if d < ml then (m, d + 1) else monthWalk (d - ml) (m + 1) rest

/-- Days in the months of `y` strictly before month `m`. -/
def daysInMonthsBefore (y m : Nat) : Nat := ((monthsOf y).take (m - 1)).sum

/-- Length of month `m` of year `y` (31 outside 1..12, unreachable there). -/
def monthLen (y m : Nat) : Nat := ((monthsOf y).getD (m - 1) 31)

/-- Calendar date and time-of-day fields. -/
structure DT where
  year : Nat
  month : Nat
  day : Nat
  hour : Nat
  minute : Nat
  second : Nat

/-- `datetime.fromtimestamp(n, tz=UTC-as-local)` for whole-second `n`;
`none` models the `OverflowError`/`OSError` outside the supported range. -/
def fromtimestampUTC (n : Int) : Option DT :=
  if -(epochShift : Int) ≤ n ∧ n ≤ maxTimestamp then
    let total := (n + (epochShift : Int)).toNat
    let days := total / 86400
    let tod := total % 86400
    let yr := yearWalk (days + 1) days 1
    let md := monthWalk yr.2 1 (monthsOf yr.1)
    some ⟨yr.1, md.1, md.2, tod / 3600, tod % 3600 / 60, tod % 60⟩
  else Option.none

/-- Days from 0001-01-01 to the given date. -/
def daysFromCivil (y m d : Nat) : Nat :=
  daysInYears 1 y + daysInMonthsBefore y m + (d - 1)

/-- Naive `datetime.timestamp()` under the fixed UTC local clock. -/
def timestampUTC (f : DT) : Int :=
  (daysFromCivil f.year f.month f.day : Int) * 86400 +
    (f.hour : Int) * 3600 + (f.minute : Int) * 60 + (f.second : Int) -
    (epochShift : Int)

def digitChar (d : Nat) : Char := Char.ofNat (48 + d % 10)

def charVal (c : Char) : Nat := c.toNat - 48

def pad2 (n : Nat) : String := String.mk [digitChar (n / 10), digitChar n]

def pad4 (n : Nat) : String :=
  String.mk [digitChar (n / 1000), digitChar (n / 100), digitChar (n / 10),
    digitChar n]

/-- `datetime.isoformat()` for a whole-second datetime. -/
def isoformat (f : DT) : String :=
  pad4 f.year ++ "-" ++ pad2 f.month ++ "-" ++ pad2 f.day ++ "T" ++
    pad2 f.hour ++ ":" ++ pad2 f.minute ++ ":" ++ pad2 f.second

/-- Model of `dateutil.parser.parse` restricted to the second-precision ISO
form `isoformat` emits (the only shape the verified round trip feeds it);
like the library, it rejects out-of-calendar dates. -/
def parseISO (s : String) : Option DT :=
  match s.toList with
  | [y1, y2, y3, y4, sep1, m1, m2, sep2, d1, d2, sept, h1, h2, sep3,
      mi1, mi2, sep4, s1, s2] =>
      if sep1 = Char.ofNat 45 ∧ sep2 = Char.ofNat 45 ∧ sept = Char.ofNat 84 ∧
          sep3 = Char.ofNat 58 ∧ sep4 = Char.ofNat 58 ∧
          [y1, y2, y3, y4, m1, m2, d1, d2, h1, h2, mi1, mi2, s1, s2].all
            Char.isDigit then
        let y := ((charVal y1 * 10 + charVal y2) * 10 + charVal y3) * 10 +
          charVal y4
        let m := charVal m1 * 10 + charVal m2
        let d := charVal d1 * 10 + charVal d2
        let h := charVal h1 * 10 + charVal h2
        let mi := charVal mi1 * 10 + charVal mi2
        let sec := charVal s1 * 10 + charVal s2
        if 1 ≤ y ∧ 1 ≤ m ∧ m ≤ 12 ∧ 1 ≤ d ∧ d ≤ monthLen y m ∧
            h < 24 ∧ mi < 60 ∧ sec < 60 then
          some ⟨y, m, d, h, mi, sec⟩
        else Option.none
      else Option.none
  | _ => Option.none

end PyTime

/-! ## Data model (`app/models/record.py`, `app/models/schema.py`)

Timestamps, free-text notes and other bookkeeping fields that none of the
verified functions read are omitted. -/

/-- `SourceRecord`: a record extracted from a source system. -/
structure SourceRecord where
  id : String
  source_service : String
  source_entity : String
  data : Dct

/-- `ValidationError`. -/
structure VErr where
  field : String
  message : String
  error_type : String := "validation"
  severity : String := "error"
  value : Val := .none
  suggested_fix : Option String := Option.none

/-- `TransformedRecord`.  The `id` is whatever `_generate_target_id` returned,
which need not be a string, hence `Val`. -/
structure TransformedRecord where
  id : Val
  target_service : String
  target_entity : String
  data : Dct
  source_records : List SourceRecord
  validation_errors : List VErr := []
  warnings : List String := []

/-- `FieldMapping`.  The transform tag is kept as the operator-name string
(`TransformType` values are exactly their names). -/
structure FieldMapping where
  source_field : Option String
  target_field : String
  transform : String := "direct"
  transform_config : Dct := []
  required : Bool := false
  default_value : Val := .none
  condition : Option String := Option.none

/-- `EntityMapping`. -/
structure EntityMapping where
  name : String
  source_entity : String
  target_entity : String
  source_service : String
  target_service : String
  field_mappings : List FieldMapping := []
  dependencies : List String := []

/-! ## Transformation engine: value access
(`app/services/transformer.py`, `_get_nested_value`, `_get_source_value`,
`_set_nested_value`, `_evaluate_condition`) -/

namespace TransformEngine

/-- One loop iteration of `_get_nested_value`: handle `name[index]` parts,
dictionary lookups and numeric list indices; anything else resolves to
`None`. -/
def getNestedStep (v : Val) (part : String) : Val :=
  match matchArrayIndex part with
  | some (key, idx) =>
      let v1 := match v with | .dict kvs => sget kvs key | _ => v
      match v1 with
      | .list xs => if idx < xs.length then xs.getD idx .none else .none
      | _ => .none
  | Option.none =>
      match v with
      | .dict kvs => sget kvs part
      | .list xs =>
          if isDigitStr part then
            let idx := digitsToNat part
            if idx < xs.length then xs.getD idx .none else .none
          else .none
      | _ => .none

/-- The loop of `_get_nested_value`: a `None` intermediate short-circuits. -/
def getNestedGo : Val → List String → Val
  | v, [] => v
  | .none, _ :: _ => .none
  | v, p :: rest => getNestedGo (getNestedStep v p) rest

/-- `TransformEngine._get_nested_value`. -/
def getNestedValue (v : Val) (path : String) : Val :=
  getNestedGo v (pySplitOn path ".")

/-- The fall-through of `_get_source_value`: probe each source record's
payload in the order supplied, first non-`None` value wins. -/
def probeRecords : List SourceRecord → String → Val
  | [], _ => .none
  | r :: rest, fp =>
      match getNestedValue (.dict r.data) fp with
      | .none => probeRecords rest fp
      | v => v

/-- The combined per-service payload map built at the top of
`transform_record`: `combined_data[record.source_service] = record.data`. -/
def combinedData (records : List SourceRecord) : Dct :=
  records.foldl (fun acc r => dset acc (.str r.source_service) (.dict r.data)) []

/-- `TransformEngine._get_source_value`. -/
def getSourceValue (fieldPath : Option String) (records : List SourceRecord)
    (combined : Dct) : Val :=
  match fieldPath with
  | Option.none => .none
  | some fp =>
      if fp = "" then .none
      else
        let parts := pySplitOn fp "."
        match parts with
        | [] => probeRecords records fp
        | p0 :: rest =>
            if parts.length > 1 &&
                records.any (fun r => lowerStr r.source_service == lowerStr p0) then
              let payload := dgetD combined (.str (lowerStr p0)) (.dict [])
              getNestedValue payload (String.intercalate "." rest)
            else probeRecords records fp

/-- The recursion of `_set_nested_value` below the top level.  Descending
into (or finally assigning under) a non-dictionary value is the `TypeError`
Python raises there. -/
def setNestedVal (v : Val) (parts : List String) (x : Val) :
    Except String Val :=
  match v with
  | .dict kvs =>
      match parts with
      | [] => .ok (.dict kvs)
      | [p] => .ok (.dict (sset kvs p x))
      | p :: rest =>
          let child := match sget? kvs p with
            | some c => c
            | Option.none => .dict []
          match setNestedVal child rest x with
          | .ok c => .ok (.dict (sset kvs p c))
          | .error e => .error e
  | _ => .error "TypeError: item assignment on non-dict value"

/-- `TransformEngine._set_nested_value` on the (always-dictionary) output
payload. -/
def setNested (kvs : Dct) (path : String) (x : Val) : Except String Dct :=
  match setNestedVal (.dict kvs) (pySplitOn path ".") x with
  | .ok (.dict kvs') => .ok kvs'
  | .ok _ => .error "unreachable"
  | .error e => .error e

/-- `TransformEngine._evaluate_condition`.  The whole body is wrapped in a
`try` that turns any error into `True` (fail-open), so the embedding is
total; a non-string condition fails at the first containment test and hence
yields `True`. -/
def evalCondition (condition : Val) (combined : Dct) (_ctx : Dct) : Bool :=
  match condition with
  | .str c =>
      if strContains c " exists" then
        let f := pyTrim (pyReplace c " exists" "")
        combined.any (fun kv => !(getNestedValue kv.2 f).beq .none)
      else if strContains c " == " then
        match pySplitOn c " == " with
        | [f, expected] =>
            let expected := stripChars (pyTrim expected) [Char.ofNat 39, Char.ofNat 34]
            combined.any (fun kv =>
              pyStr (getNestedValue kv.2 (pyTrim f)) == expected)
        | _ => true
      else if strContains c " != " then
        match pySplitOn c " != " with
        | [f, expected] =>
            let expected := stripChars (pyTrim expected) [Char.ofNat 39, Char.ofNat 34]
            combined.any (fun kv =>
              pyStr (getNestedValue kv.2 (pyTrim f)) != expected)
        | _ => true
      else true
  | _ => true

/-! ## Built-in transform operators (`_transform_*`)

Each operator takes `(value, transform_config, combined_data, context)`.
`transform_config` and `context` are dictionaries by construction
(dataclass-typed), `combined_data` maps service name to payload.  A raised
Python exception is an `Except.error`. -/

/-- Operator signature. -/
abbrev TFn := Val → Dct → Dct → Dct → Except String Val

/-- The `for service_data in data.values(): _get_nested_value(...)` probe
shared by `merge`, `coalesce`, `coalesce_fields` and `compile_metadata`:
first non-`None` hit wins; a non-string path raises inside
`_get_nested_value` as soon as one payload is visited. -/
def probeData : Dct → Val → Except String Val
  | [], _ => .ok .none
  | kv :: rest, p =>
      match p with
      | .str fp =>
          match getNestedValue kv.2 fp with
          | .none => probeData rest (.str fp)
          | v => .ok v
      | _ => .error "AttributeError: split on non-string path"

def tDirect : TFn := fun v _ _ _ => .ok v

def tPrefixAdd : TFn := fun v cfg _ _ =>
  match v with
  | .none => .ok .none
  | _ =>
      let p := sgetD cfg "prefix" (.str "")
      .ok (.str (pyStr p ++ pyStr v))

def tPrefixStrip : TFn := fun v cfg _ _ =>
  match v with
  | .none => .ok .none
  | _ =>
      let vs := pyStr v
      match sgetD cfg "prefix" (.str "") with
      | .str p =>
          let vs := if strStartsWith vs p then vs.drop p.length else vs
          .ok (.str (pyStr (sgetD cfg "new_prefix" (.str "")) ++ vs))
      | _ => .error "TypeError: startswith argument must be str"

def tPrefixStripAndAdd : TFn := fun v cfg _ _ =>
  match v with
  | .none => .ok .none
  | _ =>
      let vs := pyStr v
      match sgetD cfg "strip" (.str "") with
      | .str p =>
          let vs := if strStartsWith vs p then vs.drop p.length else vs
          .ok (.str (pyStr (sgetD cfg "add" (.str "")) ++ vs))
      | _ => .error "TypeError: startswith argument must be str"

def tSplitName : TFn := fun v cfg _ _ =>
  if !v.truthy then .ok .none
  else
    let part := sgetD cfg "part" (.str "first")
    let parts := splitOnce (pyStr v) " "
    if pyEq part (.str "first") then .ok (.str (parts.headD ""))
    else if pyEq part (.str "last") then
      .ok (match parts with
        | _ :: second :: _ => .str second
        | _ => .none)
    else .ok v

/-- `s[:m]` for an integer slice bound (Python semantics, negatives count
from the end). -/
def pySliceTo (s : String) (m : Int) : String :=
  let k : Int := if 0 ≤ m then m else (s.length : Int) + m
  s.take (max 0 k).toNat

def tTruncate : TFn := fun v cfg _ _ =>
  match v with
  | .none => .ok .none
  | _ =>
      match sgetD cfg "max_length" (.int 255) with
      | .int m => .ok (.str (pySliceTo (pyStr v) m))
      | .bool b => .ok (.str (pySliceTo (pyStr v) (if b then 1 else 0)))
      | _ => .error "TypeError: slice indices must be integers"

def tUppercase : TFn := fun v _ _ _ =>
  match v with
  | .none => .ok .none
  | _ => .ok (.str (upperStr (pyStr v)))

def tLowercase : TFn := fun v _ _ _ =>
  match v with
  | .none => .ok .none
  | _ => .ok (.str (lowerStr (pyStr v)))

def tEnumMap : TFn := fun v cfg _ _ =>
  match v with
  | .none => .ok (sget cfg "default")
  | _ =>
      match sgetD cfg "mapping" (.dict []) with
      | .dict kvs => .ok (dgetD kvs (.str (pyStr v)) (sget cfg "default"))
      | _ => .error "AttributeError: get on non-dict mapping"

def tBooleanToEnum : TFn := fun v cfg _ _ =>
  let tv := pyOr (sget cfg "true_value") (sget cfg "true")
  let fv := pyOr (sget cfg "false_value") (sget cfg "false")
  match v with
  | .none => .ok fv
  | .bool b => .ok (if b then tv else fv)
  | .str s =>
      .ok (if lowerStr s == "true" || lowerStr s == "1" || lowerStr s == "yes"
        then tv else fv)
  | _ => .ok (if v.truthy then tv else fv)

def tToMetadata : TFn := fun v _ _ _ => .ok v

def tMerge : TFn := fun v cfg data _ =>
  match v with
  | .dict kvs =>
      match sgetD cfg "additional_fields" (.dict []) with
      | .dict add => do
          let res ← add.foldlM (fun (res : Dct) kv => do
            match ← probeData data kv.2 with
            | .none => pure res
            | nv => pure (dset res kv.1 nv)) kvs
          pure (Val.dict res)
      | _ => .error "AttributeError: items on non-dict additional_fields"
  | _ => .ok v

/-- One item of `array_map`: fold the `item_mapping` pairs, applying the
`id_transform` prefix rewrite on `*_id` targets. -/
def arrayMapItem (im : Dct) (idtV : Val) (item : Val) : Except String Dct :=
  im.foldlM (fun (mapped : Dct) kv => do
    let sk ← match kv.1 with
      | .str sk => pure sk
      | _ => throw "AttributeError: split on non-string source key"
    let itemValue := getNestedValue item sk
    let tk ← match kv.2 with
      | .str tk => pure tk
      | _ => throw "AttributeError: endswith on non-string target key"
    let newVal ← if strEndsWith tk "_id" && idtV.truthy && itemValue.truthy then
        match idtV with
        | .dict idt =>
            match sgetD idt "prefix" (.str "") with
            | .str p =>
                let s := pyStr itemValue
                let s := if strStartsWith s p then s.drop p.length else s
                pure (Val.str (pyStr (sgetD idt "new_prefix" (.str "")) ++ s))
            | _ => throw "TypeError: startswith argument must be str"
        | _ => throw "AttributeError: get on non-dict id_transform"
      else pure itemValue
    pure (sset mapped tk newVal)) []

def tArrayMap : TFn := fun v cfg _ _ =>
  match v with
  | .list items =>
      match sgetD cfg "item_mapping" (.dict []) with
      | .dict im => do
          let idtV := sgetD cfg "id_transform" (.dict [])
          let ms ← items.mapM (arrayMapItem im idtV)
          pure (Val.list (ms.map Val.dict))
      | _ => .error "AttributeError: items on non-dict item_mapping"
  | _ => .ok v

def tDefault : TFn := fun v cfg _ _ =>
  match v with
  | .none => .ok (sget cfg "value")
  | _ => .ok v

def tCoalesce : TFn := fun v cfg data _ =>
  match v with
  | .none =>
      let fb := sget cfg "fallback_field"
      if fb.truthy then do
        match ← probeData data fb with
        | .none => pure Val.none
        | fv =>
            let suffix := sgetD cfg "fallback_suffix" (.str "")
            pure (if suffix.truthy then Val.str (pyStr fv ++ pyStr suffix)
              else fv)
      else .ok .none
  | _ => .ok v

/-- The fallback loop of `coalesce_fields`. -/
def coalesceGo (data : Dct) : List Val → Except String Val
  | [] => .ok .none
  | f :: rest => do
      match ← probeData data f with
      | .none => coalesceGo data rest
      | v => pure v

def tCoalesceFields : TFn := fun v cfg data _ =>
  match v with
  | .none => do
      let fields ← pyIter (sgetD cfg "fallback_fields" (.list []))
      coalesceGo data fields
  | _ => .ok v

/-- The rule loop of `conditional`: `{value, result}`, `{if, then}` and
`{default}` rules are checked in sequence, non-exclusively, as in the
source. -/
def conditionalGo (v : Val) (data ctx : Dct) : List Val → Except String Val
  | [] => .ok v
  | c :: rest => do
      let hit ← (do
        if ← pyIn (.str "value") c then
          let cv ← pyIndex c (.str "value")
          if pyStr v == pyStr cv then
            match c with
            | .dict kvs => pure (some (sget kvs "result"))
            | _ => throw "AttributeError: get on non-dict rule"
          else pure Option.none
        else pure Option.none)
      match hit with
      | some res => pure res
      | Option.none =>
          if ← pyIn (.str "if") c then
            let ci ← pyIndex c (.str "if")
            if evalCondition ci data ctx then
              match c with
              | .dict kvs => pure (sget kvs "then")
              | _ => throw "AttributeError: get on non-dict rule"
            else
              if ← pyIn (.str "default") c then pyIndex c (.str "default")
              else conditionalGo v data ctx rest
          else
            if ← pyIn (.str "default") c then pyIndex c (.str "default")
            else conditionalGo v data ctx rest

def tConditional : TFn := fun v cfg data ctx => do
  let conds ← pyIter (sgetD cfg "conditions" (.list []))
  conditionalGo v data ctx conds

/-- `(up_to or 0) + 1`: numeric increment, `TypeError` otherwise.  A Python
`bool` adds as an integer. -/
def pyAddOne : Val → Except String Val
  | .int n => .ok (.int (n + 1))
  | .bool b => .ok (.int ((if b then (1 : Int) else 0) + 1))
  | .float q => .ok (.float (q + 1))
  | _ => .error "TypeError: unsupported operand for +"

/-- The default `field_mapping` of `tier_mapping`. -/
def tierDefaultFieldMapping : Dct :=
  [(.str "up_to", .str "ending_unit"), (.str "unit_amount", .str "price")]

/-- The tier loop of `tier_mapping`, carrying the running `starting_unit`. -/
def tierGo (fmap : Dct) (nullUpTo : Val) :
    Val → List Val → List Val → Except String Val
  | _, [], acc => .ok (.list acc.reverse)
  | startingUnit, tier :: rest, acc => do
      let tkvs ← match tier with
        | .dict kvs => pure kvs
        | _ => throw "AttributeError: get on non-dict tier"
      let upTo := dget tkvs (.str "up_to")
      let mapped : Dct := [(.str "starting_unit", startingUnit)]
      let mapped := sset mapped "ending_unit"
        (match upTo with
          | .none => nullUpTo
          | u => u)
      let mapped := fmap.foldl (fun m kv =>
        if dcontains tkvs kv.1 then dset m kv.2 (dget tkvs kv.1) else m) mapped
      let newStart ← pyAddOne (pyOr upTo (.int 0))
      tierGo fmap nullUpTo newStart rest (Val.dict mapped :: acc)

def tTierMapping : TFn := fun v cfg _ _ =>
  match v with
  | .list tiers =>
      match sgetD cfg "field_mapping" (.dict tierDefaultFieldMapping) with
      | .dict fmap =>
          tierGo fmap (sgetD cfg "null_up_to" (.str "inf")) (.int 1) tiers []
      | _ => .error "AttributeError: items on non-dict field_mapping"
  | _ => .ok v

def tNegateIfPositive : TFn := fun v _ _ _ =>
  match v with
  | .none => .ok .none
  | _ =>
      match pyFloat? v with
      | some q => .ok (.float (if 0 < q then -q else q))
      | Option.none => .ok v

def tNegateIfNegative : TFn := fun v _ _ _ =>
  match v with
  | .none => .ok .none
  | _ =>
      match pyFloat? v with
      | some q => .ok (.float |q|)
      | Option.none => .ok v

def tIsoToUnix : TFn := fun v _ _ _ =>
  match v with
  | .none => .ok .none
  | .int n => .ok (.int n)
  | .bool b => .ok (.int (if b then 1 else 0))
  | .float q => .ok (.int (pyIntTrunc q))
  | .str s =>
      match PyTime.parseISO s with
      | some f => .ok (.int (PyTime.timestampUTC f))
      | Option.none => .ok .none
  | _ => .ok .none

def tUnixToIso : TFn := fun v _ _ _ =>
  match v with
  | .none => .ok .none
  | _ =>
      match pyFloat? v with
      | Option.none => .ok .none
      | some q =>
          if q.den == 1 then
            match PyTime.fromtimestampUTC q.num with
            | some f => .ok (.str (PyTime.isoformat f))
            | Option.none => .ok .none
          else .ok .none

def tMultiply : TFn := fun v cfg _ _ =>
  match v with
  | .none => .ok .none
  | _ =>
      let m := sgetD cfg "multiplier" (.int 1)
      match pyFloat? v, m.toNum? with
      | some q, some mq => .ok (.float (q * mq))
      | _, _ => .ok v

def tDivide : TFn := fun v cfg _ _ =>
  match v with
  | .none => .ok .none
  | _ =>
      let d := sgetD cfg "divisor" (.int 1)
      if pyEq d (.int 0) then .ok v
      else
        match pyFloat? v, d.toNum? with
        | some q, some dq => .ok (.float (q / dq))
        | _, _ => .ok v

/-- The built-in country-name table of `_transform_country_code`. -/
def countryCodes : List (String × String) :=
  [("united states", "US"), ("united states of america", "US"), ("usa", "US"),
   ("united kingdom", "GB"), ("uk", "GB"), ("great britain", "GB"),
   ("germany", "DE"), ("france", "FR"), ("canada", "CA"), ("australia", "AU"),
   ("japan", "JP"), ("china", "CN"), ("india", "IN"), ("brazil", "BR"),
   ("mexico", "MX"), ("spain", "ES"), ("italy", "IT"), ("netherlands", "NL"),
   ("sweden", "SE"), ("switzerland", "CH"), ("belgium", "BE"),
   ("austria", "AT"), ("denmark", "DK"), ("norway", "NO"), ("finland", "FI"),
   ("ireland", "IE"), ("portugal", "PT"), ("poland", "PL"),
   ("new zealand", "NZ"), ("singapore", "SG")]

def tCountryCode : TFn := fun v _ _ _ =>
  match v with
  | .none => .ok .none
  | _ =>
      let vl := pyTrim (lowerStr (pyStr v))
      if vl.length == 2 then .ok (.str (upperStr vl))
      else
        match (countryCodes.find? (·.1 == vl)).map (·.2) with
        | some code => .ok (.str code)
        | Option.none => .ok v

def tCleanPhone : TFn := fun v _ _ _ =>
  match v with
  | .none => .ok .none
  | _ =>
      let phone := String.mk ((pyStr v).toList.filter
        (fun c => c.isDigit || c == Char.ofNat 43))
      let phone :=
        if phone ≠ "" && !strStartsWith phone "+" && phone.length > 10 then
          "+" ++ phone
        else phone
      .ok (if phone == "" then .none else .str phone)

/-- The default `field_map` of `address_mapping`. -/
def addressDefaultFieldMap : Dct :=
  [(.str "line1", .str "line1"), (.str "line2", .str "line2"),
   (.str "city", .str "city"), (.str "state", .str "state_code"),
   (.str "postal_code", .str "zip"), (.str "country", .str "country")]

def tAddressMapping : TFn := fun v cfg _ _ =>
  match v with
  | .dict kvs =>
      match sgetD cfg "field_map" (.dict addressDefaultFieldMap) with
      | .dict fmap =>
          .ok (.dict (fmap.foldl (fun res kv =>
            if dcontains kvs kv.1 then dset res kv.2 (dget kvs kv.1) else res)
            []))
      | _ => .error "AttributeError: items on non-dict field_map"
  | _ => .ok v

/-- The row scan of `lookup`. -/
def lookupGo (v keyField valueField : Val) : List Val → Except String Val
  | [] => .ok .none
  | row :: rest => do
      let rkvs ← match row with
        | .dict kvs => pure kvs
        | _ => throw "AttributeError: get on non-dict row"
      if pyEq (dget rkvs keyField) v then
        if valueField.truthy then pure (dget rkvs valueField)
        else pure row
      else lookupGo v keyField valueField rest

def tLookup : TFn := fun v cfg _ ctx =>
  match v with
  | .none => .ok .none
  | _ => do
      let tbl ← match sgetD ctx "lookup_tables" (.dict []) with
        | .dict tkvs => pure (dget tkvs (sget cfg "table"))
        | _ => throw "AttributeError: get on non-dict lookup_tables"
      if tbl.truthy then
        let rows ← pyIter tbl
        lookupGo v (sgetD cfg "key_field" (.str "id")) (sget cfg "value_field")
          rows
      else pure .none

/-- One entry of `compile_metadata`: probe the source path and collect a
non-absent hit under the target key. -/
def compileStep (data : Dct) (res : Dct) (kv : Val × Val) :
    Except String Dct := do
  match ← probeData data kv.2 with
  | .none => pure res
  | fv => pure (dset res kv.1 fv)

def tCompileMetadata : TFn := fun _ cfg data _ =>
  match sgetD cfg "source_fields" (.dict []) with
  | .dict sf => do
      let res ← sf.foldlM (compileStep data) ([] : Dct)
      pure (if res.isEmpty then Val.none else Val.dict res)
  | _ => .error "AttributeError: items on non-dict source_fields"

/-- `_register_builtin_transforms`: operator name to implementation. -/
def builtins : String → Option TFn
  | "direct" => some tDirect
  | "prefix_add" => some tPrefixAdd
  | "prefix_strip" => some tPrefixStrip
  | "prefix_strip_and_add" => some tPrefixStripAndAdd
  | "split_name" => some tSplitName
  | "truncate" => some tTruncate
  | "uppercase" => some tUppercase
  | "lowercase" => some tLowercase
  | "enum_map" => some tEnumMap
  | "boolean_to_enum" => some tBooleanToEnum
  | "to_metadata" => some tToMetadata
  | "merge" => some tMerge
  | "array_map" => some tArrayMap
  | "default" => some tDefault
  | "coalesce" => some tCoalesce
  | "coalesce_fields" => some tCoalesceFields
  | "conditional" => some tConditional
  | "tier_mapping" => some tTierMapping
  | "negate_if_positive" => some tNegateIfPositive
  | "negate_if_negative" => some tNegateIfNegative
  | "iso_to_unix" => some tIsoToUnix
  | "unix_to_iso" => some tUnixToIso
  | "multiply" => some tMultiply
  | "divide" => some tDivide
  | "country_code" => some tCountryCode
  | "clean_phone" => some tCleanPhone
  | "address_mapping" => some tAddressMapping
  | "lookup" => some tLookup
  | "compile_metadata" => some tCompileMetadata
  | _ => Option.none

/-- The names registered in `_register_builtin_transforms`. -/
def builtinNames : List String :=
  ["direct", "prefix_add", "prefix_strip", "prefix_strip_and_add",
   "split_name", "truncate", "uppercase", "lowercase", "enum_map",
   "boolean_to_enum", "to_metadata", "merge", "array_map", "default",
   "coalesce", "coalesce_fields", "conditional", "tier_mapping",
   "negate_if_positive", "negate_if_negative", "iso_to_unix", "unix_to_iso",
   "multiply", "divide", "country_code", "clean_phone", "address_mapping",
   "lookup", "compile_metadata"]

/-- Lookup in the engine's registered custom transforms
(`_custom_transforms`). -/
def customsGet (customs : List (String × TFn)) (name : String) : Option TFn :=
  (customs.find? (·.1 == name)).map (·.2)

/-- Transform resolution of `transform_record`: custom table first, then
built-ins; an unresolved `custom` tag additionally tries the function named
by `transform_config["function"]` (a non-string name simply misses). -/
def resolveTransform (customs : List (String × TFn)) (fm : FieldMapping) :
    Option TFn :=
  match customsGet customs fm.transform with
  | some f => some f
  | Option.none =>
      match builtins fm.transform with
      | some f => some f
      | Option.none =>
          if fm.transform == "custom" then
            match sget fm.transform_config "function" with
            | .str fn => customsGet customs fn
            | _ => Option.none
          else Option.none

/-- The `ValidationError` recorded by the per-field `except` handler. -/
def mkTransformErr (fm : FieldMapping) (e : String) : VErr :=
  { field := fm.target_field
    message := "Transform error: " ++ e
    error_type := "transform"
    value := match fm.source_field with
      | some s => .str s
      | Option.none => .none }

/-- The mutable per-record accumulation of `transform_record`. -/
structure FieldState where
  data : Dct := []
  errors : List VErr := []
  warnings : List String := []

/-- Write-back tail of the per-field body: default substitution, sparse
output (absent values are not written), and the nested write whose
`TypeError` the surrounding `try` turns into a transform error. -/
def writeBack (st : FieldState) (fm : FieldMapping) (tv : Val) : FieldState :=
  let tv := if tv.isNone && !fm.default_value.isNone then fm.default_value
    else tv
  if tv.isNone then st
  else
    match setNested st.data fm.target_field tv with
    | .ok d => { st with data := d }
    | .error e => { st with errors := st.errors ++ [mkTransformErr fm e] }

/-- One iteration of the field-mapping loop of `transform_record`: condition
check, source resolution, transform application (unknown operators fall back
to an identity copy plus a warning), default handling and target write; any
exception becomes a recorded transform error for the mapping. -/
def processField (customs : List (String × TFn)) (records : List SourceRecord)
    (combined : Dct) (ctx : Dct) (st : FieldState) (fm : FieldMapping) :
    FieldState :=
  let skip := match fm.condition with
    | some c => c ≠ "" && !(evalCondition (.str c) combined ctx)
    | Option.none => false
  if skip then st
  else
    let sourceValue := getSourceValue fm.source_field records combined
    match resolveTransform customs fm with
    | some f =>
        match f sourceValue fm.transform_config combined ctx with
        | .error e => { st with errors := st.errors ++ [mkTransformErr fm e] }
        | .ok tv => writeBack st fm tv
    | Option.none =>
        let tn := fm.transform
        let st := { st with
          warnings := st.warnings ++
            [s!"Unknown transform: {tn}, using direct copy"] }
        writeBack st fm sourceValue

/-- The field-mapping scan of `_generate_target_id`: the first mapping
targeting `"id"` whose resolved source value is truthy decides the id (via a
built-in transform when its tag names one, else `str`); otherwise the
`"{service}_{id}"` fallback from the first source record. -/
def idLoop (records : List SourceRecord) : List FieldMapping →
    Except String Val
  | [] =>
      .ok (.str (match records with
        | r :: _ => r.source_service ++ "_" ++ r.id
        | [] => ""))
  | fm :: rest =>
      if fm.target_field == "id" then
        let sv := getSourceValue fm.source_field records []
        if sv.truthy then
          match builtins fm.transform with
          | some f => f sv fm.transform_config [] []
          | Option.none => .ok (.str (pyStr sv))
        else idLoop records rest
      else idLoop records rest

/-- `TransformEngine._generate_target_id`. -/
def generateTargetId (records : List SourceRecord) (m : EntityMapping) :
    Except String Val :=
  idLoop records m.field_mappings

/-- `TransformEngine.transform_record`.  The id derivation sits outside the
per-field `try`, so an exception there propagates. -/
def transformRecord (customs : List (String × TFn))
    (records : List SourceRecord) (m : EntityMapping)
    (targetService targetEntity : String) (ctx : Dct) :
    Except String TransformedRecord := do
  let combined := combinedData records
  let tid ← generateTargetId records m
  let st := m.field_mappings.foldl (processField customs records combined ctx)
    {}
  pure { id := tid
         target_service := targetService
         target_entity := targetEntity
         data := st.data
         source_records := records
         validation_errors := st.errors
         warnings := st.warnings }

end TransformEngine

/-! ## Orchestrator deduplication
(`app/orchestrator.py`, `MigrationOrchestrator._deduplicate_records`, the
per-entity loop body) -/

namespace Orchestrator

/-- `record.source_records[0].source_service if record.source_records else ""`. -/
def firstSourceService (r : TransformedRecord) : String :=
  match r.source_records with
  | s :: _ => s.source_service
  | [] => ""

/-- The `seen` dictionary: keys are the normalized dedup-key values (or raw
record ids for records without a key). -/
abbrev Seen := List (Val × TransformedRecord)

/-- `seen[k]` lookup. -/
def seenGet? : Seen → Val → Option TransformedRecord
  | [], _ => Option.none
  | (k', r) :: rest, k => if pyEq k' k then some r else seenGet? rest k

/-- `seen[k] = r`: replace in place (insertion order kept) or append. -/
def seenSet : Seen → Val → TransformedRecord → Seen
  | [], k, r => [(k, r)]
  | (k', r') :: rest, k, r =>
      if pyEq k' k then (k', r) :: rest else (k', r') :: seenSet rest k r

/-- The loop body of `_deduplicate_records` for one record: keyless records
are kept under their id; keyed records collapse per normalized key, a
later-seen record from the preferred source replacing a non-preferred
earlier one after absorbing its `meta_data` via `new_meta.update(existing_meta)`. -/
def dedupStep (keyField preferred : String) (seen : Seen)
    (record : TransformedRecord) : Seen :=
  let keyValue := sget record.data keyField
  if !keyValue.truthy then
    if (seenGet? seen record.id).isSome then seen
    else seenSet seen record.id record
  else
    let k := Val.str (lowerStr (pyStr keyValue))
    match seenGet? seen k with
    | Option.none => seenSet seen k record
    | some existing =>
        if firstSourceService record == preferred &&
            firstSourceService existing != preferred then
          let existingMeta := sgetD existing.data "meta_data" (.dict [])
          let newMeta := sgetD record.data "meta_data" (.dict [])
          let merged := dictUpdate newMeta existingMeta
          let record := { record with data := sset record.data "meta_data" merged }
          seenSet seen k record
        else seen

/-- `_deduplicate_records` restricted to one entity's record list:
`list(seen.values())` after folding every record through the loop body. -/
def dedupEntity (keyField preferred : String)
    (records : List TransformedRecord) : List TransformedRecord :=
  (records.foldl (dedupStep keyField preferred) []).map (·.2)

end Orchestrator

/-! ## Schema model and validator
(`app/models/schema.py`, `app/services/validator.py`) -/

/-- `FieldType`. -/
inductive FieldType where
  | string | integer | decimal | boolean | timestamp | date | datetime
  | enum | object | array | json | currency
deriving DecidableEq, Repr

/-- `FieldDefinition` (recursive through `properties` and `items`); the
unread description/default/example/notes fields are omitted. -/
inductive FieldDefinition where
  | mk (name : String) (type : FieldType) (required : Bool)
      (max_length : Option Int) (enum_values : Option (List String))
      (properties : Option (List (String × FieldDefinition)))
      (items : Option FieldDefinition)

namespace FieldDefinition

def name : FieldDefinition → String
  | .mk n _ _ _ _ _ _ => n

def type : FieldDefinition → FieldType
  | .mk _ t _ _ _ _ _ => t

def required : FieldDefinition → Bool
  | .mk _ _ r _ _ _ _ => r

def max_length : FieldDefinition → Option Int
  | .mk _ _ _ m _ _ _ => m

def enum_values : FieldDefinition → Option (List String)
  | .mk _ _ _ _ e _ _ => e

def properties : FieldDefinition → Option (List (String × FieldDefinition))
  | .mk _ _ _ _ _ p _ => p

def items : FieldDefinition → Option FieldDefinition
  | .mk _ _ _ _ _ _ i => i

end FieldDefinition

/-- A simple (flat, scalar) field definition, the common case. -/
def simpleField (n : String) (t : FieldType) (req : Bool) : FieldDefinition :=
  .mk n t req Option.none Option.none Option.none Option.none

/-- `EntitySchema`. -/
structure EntitySchema where
  name : String
  fields : List (String × FieldDefinition) := []
  primary_key : String := "id"

/-- `ServiceSchema`. -/
structure ServiceSchema where
  name : String
  entities : List (String × EntitySchema) := []

namespace RecordValidator

/-- The validator's own `_get_nested_value` (dictionary-only descent,
`validator.py`). -/
def getNestedGoV : Val → List String → Val
  | v, [] => v
  | .none, _ :: _ => .none
  | .dict kvs, p :: rest => getNestedGoV (sget kvs p) rest
  | _, _ :: _ => .none

/-- `RecordValidator._get_nested_value`. -/
def getNestedV (data : Dct) (path : String) : Val :=
  getNestedGoV (.dict data) (pySplitOn path ".")

/-- Model of `datetime.strptime(value, "%Y-%m-%d")` succeeding: a real
proleptic-Gregorian date with 1-4/1-2/1-2 digit components. -/
def isValidDate (s : String) : Bool :=
  match pySplitOn s "-" with
  | [ys, ms, ds] =>
      isDigitStr ys && ys.length ≤ 4 && isDigitStr ms && ms.length ≤ 2 &&
        isDigitStr ds && ds.length ≤ 2 &&
        (let y := digitsToNat ys
         let m := digitsToNat ms
         let d := digitsToNat ds
         1 ≤ y && y ≤ 9999 && 1 ≤ m && m ≤ 12 && 1 ≤ d &&
           d ≤ PyTime.monthLen y m)
  | _ => false

/-- Model of `_is_valid_datetime`: ISO date, or date plus a `T`/space
separated wall time (the shapes the engine produces); `fromisoformat`
details beyond these are not exercised by the verified claims. -/
def isValidDateTime (s : String) : Bool :=
  let core := String.mk ((pyReplace s "Z" "+00:00").toList.takeWhile (fun c => c ≠ Char.ofNat 43))
  match pySplitOn core "T" with
  | [d] =>
      (match pySplitOn d " " with
        | [d0] => isValidDate d0
        | [d0, t0] => isValidDate d0 && isValidTime t0
        | _ => false)
  | [d0, t0] => isValidDate d0 && isValidTime t0
  | _ => false
where
  isValidTime (t : String) : Bool :=
    match pySplitOn t ":" with
    | [h, m, sec] =>
        isDigitStr h && isDigitStr m &&
          (isDigitStr ((pySplitOn sec ".").headD sec)) &&
          digitsToNat h < 24 && digitsToNat m < 60 &&
          digitsToNat ((pySplitOn sec ".").headD sec) < 60
    | _ => false

/-- The `type_checks` table of `_validate_type`.  Python `bool` is a
subclass of `int`: the `integer`, `decimal` and `currency` checks exclude it
explicitly, the `timestamp` check does not. -/
def typeCheck : FieldType → Val → Bool
  | .string, v => v.isStr
  | .integer, .int _ => true
  | .integer, _ => false
  | .decimal, .int _ => true
  | .decimal, .float _ => true
  | .decimal, _ => false
  | .boolean, .bool _ => true
  | .boolean, _ => false
  | .timestamp, .int _ => true
  | .timestamp, .float _ => true
  | .timestamp, .bool _ => true
  | .timestamp, _ => false
  | .date, .str s => isValidDate s
  | .date, _ => false
  | .datetime, .str s => isValidDateTime s
  | .datetime, _ => false
  | .enum, v => v.isStr
  | .object, v => v.isDict
  | .array, v => v.isList
  | .json, .dict _ => true
  | .json, .list _ => true
  | .json, .str _ => true
  | .json, _ => false
  | .currency, .int _ => true
  | .currency, .float _ => true
  | .currency, _ => false

/-- `FieldType.value` strings. -/
def ftName : FieldType → String
  | .string => "string"
  | .integer => "integer"
  | .decimal => "decimal"
  | .boolean => "boolean"
  | .timestamp => "timestamp"
  | .date => "date"
  | .datetime => "datetime"
  | .enum => "enum"
  | .object => "object"
  | .array => "array"
  | .json => "json"
  | .currency => "currency"

/-- `type(value).__name__`. -/
def pyTypeName : Val → String
  | .none => "NoneType"
  | .bool _ => "bool"
  | .int _ => "int"
  | .float _ => "float"
  | .str _ => "str"
  | .list _ => "list"
  | .dict _ => "dict"

/-- `RecordValidator._validate_type`. -/
def validateType (fieldName : String) (v : Val) (t : FieldType) : Option VErr :=
  if typeCheck t v then Option.none
  else
    some { field := fieldName
           message := "Invalid type. Expected " ++ ftName t ++ ", got " ++
             pyTypeName v
           error_type := "type"
           severity := "error"
           value := v }

mutual

/-- `RecordValidator._validate_field`: required, type, max-length and enum
checks, then recursion into object properties and array items. -/
def validateField (fieldName : String) (v : Val) (fd : FieldDefinition) :
    List VErr :=
  match fd with
  | .mk _ t req maxLen evsO propsO itemsO =>
    if req && v.isNone then
      [{ field := fieldName
         message := "Required field is missing"
         error_type := "required"
         severity := "error" }]
    else if v.isNone then []
    else
      (validateType fieldName v t).toList ++
      (match maxLen with
        | some m =>
            if m ≠ 0 then
              match v with
              | .str s =>
                  if (s.length : Int) > m then
                    [{ field := fieldName
                       message := "Value exceeds max length of " ++ toString m
                       error_type := "max_length"
                       severity := "error"
                       value := .int (s.length : Int)
                       suggested_fix := some ("Truncate to " ++ toString m ++
                         " characters") }]
                  else []
              | _ => []
            else []
        | Option.none => []) ++
      (match evsO with
        | some evs =>
            if !evs.isEmpty && !(evs.any (fun s => pyEq v (.str s))) then
              [{ field := fieldName
                 message := "Invalid enum value. Must be one of: " ++
                   reprV (.list (evs.map .str))
                 error_type := "enum"
                 severity := "error"
                 value := v
                 suggested_fix := some ("Use one of: " ++
                   String.intercalate ", " evs) }]
            else []
        | Option.none => []) ++
      (match t, propsO, v with
        | .object, some props, .dict kvs => validateProps fieldName kvs props
        | _, _, _ => []) ++
      (match t, itemsO, v with
        | .array, some itemDef, .list xs =>
            validateItems fieldName itemDef 0 xs
        | _, _, _ => [])
termination_by (sizeOf fd, 0)

/-- The `properties` loop of `_validate_field`. -/
def validateProps (fieldName : String) (kvs : Dct) :
    List (String × FieldDefinition) → List VErr
  | [] => []
  | (pn, pd) :: rest =>
      validateField (fieldName ++ "." ++ pn) (sget kvs pn) pd ++
        validateProps fieldName kvs rest
termination_by props => (sizeOf props, 0)

/-- The `items` loop of `_validate_field`. -/
def validateItems (fieldName : String) (fd : FieldDefinition) (i : Nat) :
    List Val → List VErr
  | [] => []
  | x :: rest =>
      validateField (fieldName ++ "[" ++ toString i ++ "]") x fd ++
        validateItems fieldName fd (i + 1) rest
termination_by xs => (sizeOf fd, 1 + sizeOf xs)

end

/-- `RecordValidator._get_all_field_paths`. -/
def getAllFieldPaths : Dct → String → List String
  | [], _ => []
  | (k, v) :: rest, pfx =>
      let path := if pfx == "" then pyStr k else pfx ++ "." ++ pyStr k
      (path :: (match v with
        | .dict sub => getAllFieldPaths sub path
        | _ => [])) ++ getAllFieldPaths rest pfx

/-- `RecordValidator.validate_record`: schema-field checks, then — only in
strict mode — the unknown-field sweep, whose severity expression still
mentions the unreachable non-strict case. -/
def validateRecord (record : TransformedRecord) (schema : EntitySchema)
    (strict : Bool) : List VErr :=
  (schema.fields.flatMap fun kv =>
    validateField kv.1 (getNestedV record.data kv.1) kv.2) ++
  (if strict then
    (getAllFieldPaths record.data "").flatMap fun f =>
      let root := (pySplitOn f ".").headD f
      if !(schema.fields.any (·.1 == root)) && !strStartsWith f "meta_data" then
        [{ field := f
           message := "Unknown field in target schema: " ++ f
           severity := if !strict then "warning" else "error" }]
      else []
  else [])

end RecordValidator

/-! ## Schema registry (`app/services/schema_registry.py`) -/

namespace SchemaRegistry

/-- The registry's schema dictionary, keyed (as `register_schema` does) by
the lower-cased service name. -/
structure Registry where
  schemas : List (String × ServiceSchema) := []

/-- `SchemaRegistry.get_schema`. -/
def getSchema (reg : Registry) (serviceName : String) : Option ServiceSchema :=
  (reg.schemas.find? (·.1 == lowerStr serviceName)).map (·.2)

/-- `SchemaRegistry.get_entity_schema`. -/
def getEntitySchema (reg : Registry) (serviceName entityName : String) :
    Option EntitySchema :=
  match getSchema reg serviceName with
  | some s => (s.entities.find? (·.1 == entityName)).map (·.2)
  | Option.none => Option.none

/-- `SchemaRegistry.validate_mapping`. -/
def validateMapping (reg : Registry) (m : EntityMapping) : List String :=
  let ss? := getEntitySchema reg m.source_service m.source_entity
  let ts? := getEntitySchema reg m.target_service m.target_entity
  let notFound :=
    (if ss?.isNone then
      ["Source schema not found: " ++ m.source_service ++ "." ++
        m.source_entity]
    else []) ++
    (if ts?.isNone then
      ["Target schema not found: " ++ m.target_service ++ "." ++
        m.target_entity]
    else [])
  match ss?, ts? with
  | some ss, some ts =>
      notFound ++
      (m.field_mappings.flatMap fun fm =>
        (match fm.source_field with
          | some sf =>
              if sf ≠ "" && !(ss.fields.any (·.1 == sf)) then
                if !(ss.fields.any (·.1 == (pySplitOn sf ".").headD sf)) then
                  ["Source field not found: " ++ sf]
                else []
              else []
          | Option.none => []) ++
        (if fm.target_field ≠ "" then
          if !(ts.fields.any
                (·.1 == (pySplitOn fm.target_field ".").headD fm.target_field)) &&
              !strStartsWith fm.target_field "meta_data" then
            ["Target field not found: " ++ fm.target_field]
          else []
        else [])) ++
      (ts.fields.flatMap fun kv =>
        if kv.2.required &&
            !(m.field_mappings.any (·.target_field == kv.1)) then
          ["Required target field has no mapping: " ++ kv.1]
        else [])
  | _, _ => notFound

end SchemaRegistry

/-! ## Auxiliary definitions used by the claim analyses -/

namespace TransformEngine

/-- Apply a built-in operator by name (an unknown name is never applied by
the engine, so the error case below is unreachable from `builtinNames`). -/
def applyBuiltin (name : String) (v : Val) (cfg data ctx : Dct) :
    Except String Val :=
  match builtins name with
  | some f => f v cfg data ctx
  | Option.none => .error "unknown operator"

/-- Well-formedness of an operator configuration for the absent-input path:
the three operators that still read their configuration when the input is
absent need the read entry to have the shape the code iterates over. -/
def wfConfig : String → Dct → Bool
  | "conditional", cfg =>
      (match sget? cfg "conditions" with
        | Option.none => true
        | some (.list cs) => cs.all Val.isDict
        | some _ => false)
  | "coalesce_fields", cfg =>
      (match sget? cfg "fallback_fields" with
        | Option.none => true
        | some (.list _) => true
        | some (.str _) => true
        | some (.dict _) => true
        | some _ => false)
  | "compile_metadata", cfg =>
      (match sget? cfg "source_fields" with
        | Option.none => true
        | some (.dict _) => true
        | some _ => false)
  | _, _ => true

/-- The `up_to` shape of a tier list: for each tier (a dictionary), `some k`
when its `up_to` key holds an integer, `Option.none` when the key is absent;
any other shape rejects the whole list. -/
def tierUpTos? : List Val → Option (List (Option Int))
  | [] => some []
  | t :: rest =>
      match t with
      | .dict kvs =>
          match sget? kvs "up_to" with
          | Option.none =>
              match tierUpTos? rest with
              | some us => some (Option.none :: us)
              | Option.none => Option.none
          | some (.int k) =>
              match tierUpTos? rest with
              | some us => some (some k :: us)
              | Option.none => Option.none
          | some _ => Option.none
      | _ => Option.none

/-- The `starting_unit` handed to the next band by `(up_to or 0) + 1`. -/
def nextStart : Option Int → Int
  | some k => k + 1
  | Option.none => 1

/-- The tier's `up_to` value as a `Val` (absent modelled as `None`,
matching `dict.get`). -/
def uVal : Option Int → Val
  | some k => .int k
  | Option.none => .none

/-- The `starting_unit` the loop assigns to band `i`, given the initial
start `s` and the `up_to` shape: each integer `up_to` hands `k + 1` to the
next band (`(up_to or 0) + 1`), an absent one hands `1`. -/
def tierStart (s : Int) : List (Option Int) → Nat → Int
  | _, 0 => s
  | u :: rest, i + 1 => tierStart (nextStart u) rest i
  | [], _ + 1 => s

/-- The `ending_unit` of a band: the tier's integer `up_to`, or the
configured sentinel when the key is absent. -/
def endVal (nul : Val) : Option Int → Val
  | some k => .int k
  | Option.none => nul

/-- Ascending `up_to` values, an absent one only allowed last. -/
def ascUpTos : List (Option Int) → Bool
  | [] => true
  | [_] => true
  | some a :: some b :: rest => decide (a < b) && ascUpTos (some b :: rest)
  | some _ :: Option.none :: rest => rest.isEmpty
  | Option.none :: _ :: _ => false

/-- A `tier_mapping` configuration whose `field_mapping` does not redirect
the band-boundary keys: nothing maps onto `starting_unit`, and only the
`up_to` source maps onto `ending_unit`. -/
def benignFieldMapping (cfg : Dct) : Bool :=
  match sget? cfg "field_mapping" with
  | Option.none => true
  | some (.dict fmap) =>
      fmap.all (fun kv =>
        !(pyEq kv.2 (.str "starting_unit")) &&
        (!(pyEq kv.2 (.str "ending_unit")) || pyEq kv.1 (.str "up_to")))
  | some _ => false

/-- Field `key` of the `i`-th output band. -/
def bandField (bands : List Val) (i : Nat) (key : String) : Val :=
  match bands.getD i Val.none with
  | .dict kvs => sget kvs key
  | _ => .none

end TransformEngine

/-- Pairwise-distinct dictionary keys (under Python equality), as holds for
every dictionary Python actually builds. -/
def keysDistinct : Dct → Bool
  | [] => true
  | (k, _) :: rest => rest.all (fun kv => !(pyEq kv.1 k)) && keysDistinct rest

/-! Concrete instances the claim counterexamples and witnesses evaluate. -/

/-- C1: the earlier-seen, non-preferred record (from salesforce). -/
def c1loser : TransformedRecord :=
  { id := .str "salesforce_1"
    target_service := "chargebee"
    target_entity := "customer"
    data := [(.str "email", .str "a@x.com"),
             (.str "meta_data", .dict [(.str "k", .str "loser")])]
    source_records := [{ id := "1", source_service := "salesforce",
                         source_entity := "contact", data := [] }] }

/-- C1: the later-seen record from the preferred source (stripe). -/
def c1winner : TransformedRecord :=
  { id := .str "stripe_1"
    target_service := "chargebee"
    target_entity := "customer"
    data := [(.str "email", .str "a@x.com"),
             (.str "meta_data", .dict [(.str "k", .str "winner")])]
    source_records := [{ id := "1", source_service := "stripe",
                         source_entity := "customer", data := [] }] }

/-- C2: a record whose only field is unknown to the schema. -/
def c2record : TransformedRecord :=
  { id := .str "r1"
    target_service := "chargebee"
    target_entity := "customer"
    data := [(.str "extra", .int 1)]
    source_records := [] }

/-- C2: a schema with a single optional string field. -/
def c2schema : EntitySchema :=
  { name := "customer"
    fields := [("name", simpleField "name" .string false)] }

/-- C3: a source record whose service name is not lower-case. -/
def c3record : SourceRecord :=
  { id := "s1", source_service := "Stripe", source_entity := "customer",
    data := [(.str "email", .str "x@y.com")] }

/-- C5: a record for the id-derivation counterexample. -/
def c5record : SourceRecord :=
  { id := "s1", source_service := "stripe", source_entity := "customer",
    data := [(.str "email", .str "x@y.com")] }

/-- C5: a mapping whose only field mapping targets `id` from a field the
record does not have. -/
def c5mapping : EntityMapping :=
  { name := "m", source_entity := "customer", target_entity := "customer",
    source_service := "stripe", target_service := "chargebee",
    field_mappings := [{ source_field := some "missing_field",
                         target_field := "id", transform := "direct" }] }

/-- C7: a record supplying the probed source field. -/
def c7record : SourceRecord :=
  { id := "s1", source_service := "stripe", source_entity := "customer",
    data := [(.str "x", .int 1)] }

/-- C7: a first mapping writing a scalar at `a`, then an unknown-transform
mapping targeting `a.b`, whose nested write therefore fails. -/
def c7mapping : EntityMapping :=
  { name := "m", source_entity := "customer", target_entity := "customer",
    source_service := "stripe", target_service := "chargebee",
    field_mappings :=
      [{ source_field := some "x", target_field := "a",
         transform := "direct" },
       { source_field := some "x", target_field := "a.b",
         transform := "bogus_op" }] }

/-- C6: a source entity schema. -/
def w6source : EntitySchema :=
  { name := "customer"
    fields := [("email", simpleField "email" .string true),
               ("name", simpleField "name" .string false)] }

/-- C6: a target entity schema with two required fields. -/
def w6target : EntitySchema :=
  { name := "customer"
    fields := [("email", simpleField "email" .string true),
               ("company", simpleField "company" .string true),
               ("phone", simpleField "phone" .string false)] }

/-- C6: a registry holding both service schemas. -/
def w6reg : SchemaRegistry.Registry :=
  { schemas := [("stripe", { name := "stripe",
                             entities := [("customer", w6source)] }),
                ("chargebee", { name := "chargebee",
                                entities := [("customer", w6target)] })] }

/-- C6: a mapping covering `email` but not the required `company`. -/
def w6mapping : EntityMapping :=
  { name := "m", source_entity := "customer", target_entity := "customer",
    source_service := "stripe", target_service := "chargebee",
    field_mappings := [{ source_field := some "email",
                         target_field := "email", transform := "direct" }] }

/-- C3 witness: a record whose service name is already lower-case. -/
def w3record : SourceRecord :=
  { id := "s1", source_service := "stripe", source_entity := "customer",
    data := [(.str "email", .str "x@y.com")] }

/-- C4 witness: two ascending tiers, the last one open-ended (no `up_to`
key). -/
def w4tiers : List Val :=
  [.dict [(.str "up_to", .int 10), (.str "unit_amount", .int 500)],
   .dict [(.str "unit_amount", .int 300)]]

/-- C7 witness: a field mapping with an unregistered operator name. -/
def w7fm : FieldMapping :=
  { source_field := some "x", target_field := "a", transform := "bogus_op" }

/-- The `"{service}_{id}"` fallback of `_generate_target_id`. -/
def fallbackId : List SourceRecord → String
  | r :: _ => r.source_service ++ "_" ++ r.id
  | [] => ""

/-- The per-mapping declaration checks of `validate_mapping` passing for one
field mapping: a declared source field (allowing a dot-path root match)
exists in the source schema, and the target field's root exists in the
target schema or sits under `meta_data`. -/
def fmDeclOK (ss ts : EntitySchema) (fm : FieldMapping) : Bool :=
  (match fm.source_field with
    | some sf =>
        (sf == "") || ss.fields.any (·.1 == sf) ||
          ss.fields.any (·.1 == (pySplitOn sf ".").headD sf)
    | Option.none => true) &&
  ((fm.target_field == "") ||
    ts.fields.any
      (·.1 == (pySplitOn fm.target_field ".").headD fm.target_field) ||
    strStartsWith fm.target_field "meta_data")

/-! # Theorems -/

/-! ## Dictionary lemmas -/

theorem pyEq_str_right_iff (k : Val) (s : String) :
    pyEq k (.str s) = true ↔ k = .str s := by
  cases k <;> simp [pyEq, Val.toNum?]

theorem pyEq_str_left_iff (s : String) (k : Val) :
    pyEq (.str s) k = true ↔ k = .str s := by
  cases k <;> simp [pyEq, Val.toNum?]
  exact ⟨Eq.symm, Eq.symm⟩

theorem dget?_dset_self_str (m : Dct) (s : String) (v : Val) :
    dget? (dset m (.str s) v) (.str s) = some v := by
  induction m with
  | nil => simp [dset, dget?, pyEq]
  | cons kv rest ih =>
      obtain ⟨k', v'⟩ := kv
      by_cases h : pyEq k' (.str s) = true
      · simp [dset, dget?, h]
      · simp [dset, dget?, h, ih]

theorem dget?_dset_ne_str (m : Dct) (k : Val) (v : Val) (s : String)
    (h : pyEq k (.str s) = false) :
    dget? (dset m k v) (.str s) = dget? m (.str s) := by
  induction m with
  | nil => simp [dset, dget?, h]
  | cons kv rest ih =>
      obtain ⟨k', v'⟩ := kv
      by_cases hc : pyEq k' k = true
      · have hks : pyEq k' (.str s) = false := by
          by_contra hx
          simp only [Bool.not_eq_false] at hx
          obtain rfl : k' = .str s := (pyEq_str_right_iff _ _).mp hx
          obtain rfl : k = .str s := (pyEq_str_left_iff _ _).mp hc
          simp [pyEq] at h
        simp [dset, dget?, hc, hks]
      · by_cases hks : pyEq k' (.str s) = true
        · simp [dset, dget?, hc, hks]
        · simp [dset, dget?, hc, hks, ih]

theorem dget?_none_of_all (m : Dct) (s : String)
    (h : m.all (fun kv => !(pyEq kv.1 (.str s))) = true) :
    dget? m (.str s) = Option.none := by
  induction m with
  | nil => rfl
  | cons kv rest ih =>
      simp only [List.all_cons, Bool.and_eq_true, Bool.not_eq_true'] at h
      simp [dget?, h.1, ih h.2]

theorem dget?_foldl_dset (ys : Dct) (xs : Dct) (s : String)
    (hdist : keysDistinct ys = true) :
    dget? (ys.foldl (fun acc kv => dset acc kv.1 kv.2) xs) (.str s) =
      (match dget? ys (.str s) with
        | some v => some v
        | Option.none => dget? xs (.str s)) := by
  induction ys generalizing xs with
  | nil => simp [dget?]
  | cons kv rest ih =>
      obtain ⟨k0, v0⟩ := kv
      simp only [keysDistinct, Bool.and_eq_true] at hdist
      by_cases h0 : pyEq k0 (.str s) = true
      · obtain rfl : k0 = .str s := (pyEq_str_right_iff _ _).mp h0
        have hnone : dget? rest (.str s) = Option.none :=
          dget?_none_of_all _ _ hdist.1
        simp [List.foldl, dget?, h0, ih _ hdist.2, hnone,
          dget?_dset_self_str]
      · simp only [Bool.not_eq_true] at h0
        simp [List.foldl, dget?, h0, ih _ hdist.2,
          dget?_dset_ne_str _ _ _ _ h0]

theorem seenGet?_seenSet_self_str (seen : Orchestrator.Seen) (s : String)
    (r : TransformedRecord) :
    Orchestrator.seenGet? (Orchestrator.seenSet seen (.str s) r) (.str s) =
      some r := by
  induction seen with
  | nil => simp [Orchestrator.seenSet, Orchestrator.seenGet?, pyEq]
  | cons kv rest ih =>
      obtain ⟨k', r'⟩ := kv
      by_cases h : pyEq k' (.str s) = true
      · simp [Orchestrator.seenSet, Orchestrator.seenGet?, h]
      · simp [Orchestrator.seenSet, Orchestrator.seenGet?, h, ih]

/-! ## C1 (amended): the deduplication merge step -/

/-- C1 (amended): when a later-seen record from the preferred source
collides with a non-preferred earlier one, the preferred record is kept
under the normalized key, and its `meta_data` becomes the union of both
records' `meta_data` in which the LOSING record's keys take precedence
(`new_meta.update(existing_meta)`): a key present in the loser's metadata
keeps the loser's value, keys only in the winner's metadata survive. -/
theorem c1_preferred_merge (keyField preferred : String)
    (seen : Orchestrator.Seen) (r existing : TransformedRecord)
    (exM newM : Dct) (s : String)
    (hk : lowerStr (pyStr (sget r.data keyField)) = s)
    (htruthy : (sget r.data keyField).truthy = true)
    (hfound : Orchestrator.seenGet? seen (.str s) = some existing)
    (hpref : Orchestrator.firstSourceService r = preferred)
    (hnotpref : Orchestrator.firstSourceService existing ≠ preferred)
    (hex : sgetD existing.data "meta_data" (.dict []) = .dict exM)
    (hnew : sgetD r.data "meta_data" (.dict []) = .dict newM)
    (hdist : keysDistinct exM = true) :
    Orchestrator.dedupStep keyField preferred seen r =
      Orchestrator.seenSet seen (.str s)
        { r with data := (sset r.data "meta_data"
            (.dict (exM.foldl (fun acc kv => dset acc kv.1 kv.2) newM))) } ∧
    Orchestrator.seenGet?
        (Orchestrator.dedupStep keyField preferred seen r) (.str s) =
      some { r with data := (sset r.data "meta_data"
          (.dict (exM.foldl (fun acc kv => dset acc kv.1 kv.2) newM))) } ∧
    ∀ key : String,
      dget? (exM.foldl (fun acc kv => dset acc kv.1 kv.2) newM) (.str key) =
        (match dget? exM (.str key) with
          | some v => some v
          | Option.none => dget? newM (.str key)) := by
  have hstep : Orchestrator.dedupStep keyField preferred seen r =
      Orchestrator.seenSet seen (.str s)
        { r with data := (sset r.data "meta_data"
            (.dict (exM.foldl (fun acc kv => dset acc kv.1 kv.2) newM))) } := by
    unfold Orchestrator.dedupStep
    simp [htruthy, hk, hfound, hpref, hnotpref, hex, hnew, dictUpdate,
      bne_iff_ne]
  refine ⟨hstep, ?_, fun key => dget?_foldl_dset _ _ _ hdist⟩
  rw [hstep]
  exact seenGet?_seenSet_self_str _ _ _

/-- C1 witness: the amended merge step at the concrete colliding pair — the
stripe record survives under the key, with the loser's metadata value for
`k`. -/
theorem c1_preferred_merge_witness :
    Orchestrator.seenGet?
        (Orchestrator.dedupStep "email" "stripe"
          [(.str "a@x.com", c1loser)] c1winner) (.str "a@x.com") =
      some { c1winner with
        data := [(.str "email", .str "a@x.com"),
                 (.str "meta_data", .dict [(.str "k", .str "loser")])] } ∧
    dget? [(.str "k", .str "loser")] (.str "k") = some (.str "loser") := by
  have h := c1_preferred_merge "email" "stripe" [(.str "a@x.com", c1loser)]
    c1winner c1loser [(.str "k", .str "loser")] [(.str "k", .str "winner")]
    "a@x.com" rfl rfl rfl rfl (by decide) rfl rfl rfl
  exact ⟨h.2.1, h.2.2 "k"⟩

/-! ## Source-value resolution lemmas (C3) -/

theorem probeRecords_cons (r : SourceRecord) (rest : List SourceRecord)
    (fp : String) :
    TransformEngine.probeRecords (r :: rest) fp =
      (if (TransformEngine.getNestedValue (.dict r.data) fp).isNone then
        TransformEngine.probeRecords rest fp
      else TransformEngine.getNestedValue (.dict r.data) fp) := by
  cases h : TransformEngine.getNestedValue (.dict r.data) fp <;>
    simp [TransformEngine.probeRecords, h, Val.isNone]

/-- The multi-source probe returns the first record's non-absent value. -/
theorem probeRecords_eq_find (records : List SourceRecord) (fp : String) :
    TransformEngine.probeRecords records fp =
      (match records.find? (fun x =>
          !(TransformEngine.getNestedValue (.dict x.data) fp).isNone) with
        | some x => TransformEngine.getNestedValue (.dict x.data) fp
        | Option.none => Val.none) := by
  induction records with
  | nil => rfl
  | cons r rest ih =>
      rw [probeRecords_cons]
      by_cases h : (TransformEngine.getNestedValue (.dict r.data) fp).isNone
        = true
      · simp [h, List.find?, ih]
      · simp only [Bool.not_eq_true] at h
        simp [h, List.find?]

theorem dget?_foldl_dset_untouched (rest : List SourceRecord) (acc : Dct)
    (s : String)
    (h : ∀ y ∈ rest, pyEq (.str y.source_service) (.str s) = false) :
    dget? (rest.foldl
        (fun a x => dset a (.str x.source_service) (.dict x.data)) acc)
      (.str s) = dget? acc (.str s) := by
  induction rest generalizing acc with
  | nil => rfl
  | cons y rest ih =>
      rw [List.foldl_cons, ih _ (fun z hz => h z (List.mem_cons_of_mem _ hz)),
        dget?_dset_ne_str _ _ _ _ (h y (List.mem_cons_self _ _))]

theorem dget?_foldl_build (records : List SourceRecord) (acc : Dct)
    (r : SourceRecord) (hmem : r ∈ records)
    (hdist : records.Pairwise
      (fun a b => a.source_service ≠ b.source_service)) :
    dget? (records.foldl
        (fun a x => dset a (.str x.source_service) (.dict x.data)) acc)
      (.str r.source_service) = some (.dict r.data) := by
  induction records generalizing acc with
  | nil => cases hmem
  | cons x rest ih =>
      rw [List.pairwise_cons] at hdist
      rcases List.mem_cons.mp hmem with rfl | hmem'
      · rw [List.foldl_cons, dget?_foldl_dset_untouched]
        · exact dget?_dset_self_str _ _ _
        · intro y hy
          have hne := hdist.1 y hy
          simp [pyEq]
          exact fun hh => hne hh.symm
      · rw [List.foldl_cons]
        exact ih _ hmem' hdist.2

/-- With pairwise-distinct service names, the combined payload map resolves
each record's service to that record's payload. -/
theorem dget?_combinedData (records : List SourceRecord) (r : SourceRecord)
    (hmem : r ∈ records)
    (hdist : records.Pairwise
      (fun a b => a.source_service ≠ b.source_service)) :
    dget? (TransformEngine.combinedData records) (.str r.source_service) =
      some (.dict r.data) :=
  dget?_foldl_build records [] r hmem hdist

/-- C3 (amended): a dotted path whose first segment names (case-
insensitively) a supplied record's source service is resolved only within
the payload-map entry keyed by the LOWER-CASED segment — which is that
service's payload exactly when the record's service name is stored
lower-case (the map is keyed by the verbatim name); and the fall-through
probes each record's payload in supply order, first non-absent value
winning. -/
theorem c3_scoped_resolution_and_probe (records : List SourceRecord)
    (fp p0 : String) (rest : List String) (r : SourceRecord)
    (hfp : fp ≠ "")
    (hsplit : pySplitOn fp "." = p0 :: rest) (hrest : rest ≠ [])
    (hmem : r ∈ records) (hserv : r.source_service = lowerStr p0)
    (hlower : ∀ x ∈ records, lowerStr x.source_service = x.source_service)
    (hdist : records.Pairwise
      (fun a b => a.source_service ≠ b.source_service)) :
    TransformEngine.getSourceValue (some fp) records
        (TransformEngine.combinedData records) =
      TransformEngine.getNestedValue (.dict r.data)
        (String.intercalate "." rest) ∧
    ∀ (fp1 : String) (records1 : List SourceRecord),
      TransformEngine.probeRecords records1 fp1 =
        (match records1.find? (fun x =>
            !(TransformEngine.getNestedValue (.dict x.data) fp1).isNone) with
          | some x => TransformEngine.getNestedValue (.dict x.data) fp1
          | Option.none => Val.none) := by
  refine ⟨?_, fun fp1 records1 => probeRecords_eq_find records1 fp1⟩
  have hlp : lowerStr p0 = r.source_service := hserv.symm
  have hsl : lowerStr r.source_service = lowerStr p0 :=
    (hlower r hmem).trans hserv
  have hany : records.any
      (fun x => lowerStr x.source_service == lowerStr p0) = true := by
    rw [List.any_eq_true]
    exact ⟨r, hmem, by simp [hsl]⟩
  have hlen : 1 < (pySplitOn fp ".").length := by
    rw [hsplit]
    cases rest with
    | nil => exact absurd rfl hrest
    | cons a b => simp
  simp only [TransformEngine.getSourceValue, if_neg hfp, hsplit]
  rw [if_pos (by
    simp only [hany, Bool.and_true, decide_eq_true_eq, List.length_cons]
    cases rest with
    | nil => exact absurd rfl hrest
    | cons a b => simp)]
  rw [hlp]
  unfold dgetD
  rw [dget?_combinedData records r hmem hdist]
  rfl

/-- C3 witness: the amended scoped resolution at a concrete lower-case
service record. -/
theorem c3_scoped_resolution_witness :
    TransformEngine.getSourceValue (some "stripe.email") [w3record]
        (TransformEngine.combinedData [w3record]) =
      TransformEngine.getNestedValue (.dict w3record.data)
        (String.intercalate "." ["email"]) :=
  (c3_scoped_resolution_and_probe [w3record] "stripe.email" "stripe"
    ["email"] w3record (by decide) rfl (by decide)
    (List.mem_singleton.mpr rfl) rfl
    (by intro x hx
        rw [List.mem_singleton] at hx
        subst hx
        rfl)
    (List.pairwise_singleton _ _)).1

/-! ## Target-id derivation lemmas (C5) -/

theorem idLoop_all_falsy (records : List SourceRecord)
    (fms : List FieldMapping)
    (h : ∀ fm ∈ fms, fm.target_field = "id" →
      (TransformEngine.getSourceValue fm.source_field records []).truthy =
        false) :
    TransformEngine.idLoop records fms = .ok (.str (fallbackId records)) := by
  induction fms with
  | nil => rfl
  | cons fm rest ih =>
      unfold TransformEngine.idLoop
      by_cases hid : fm.target_field = "id"
      · rw [if_pos (by simp [hid]),
          if_neg (by simp [h fm (List.mem_cons_self _ _) hid])]
        exact ih (fun x hx => h x (List.mem_cons_of_mem _ hx))
      · rw [if_neg (by simp [hid])]
        exact ih (fun x hx => h x (List.mem_cons_of_mem _ hx))

theorem idLoop_first_truthy (records : List SourceRecord)
    (fms1 : List FieldMapping) (fm : FieldMapping)
    (fms2 : List FieldMapping)
    (h1 : ∀ x ∈ fms1, x.target_field = "id" →
      (TransformEngine.getSourceValue x.source_field records []).truthy =
        false)
    (hid : fm.target_field = "id")
    (ht : (TransformEngine.getSourceValue fm.source_field records []).truthy
      = true) :
    TransformEngine.idLoop records (fms1 ++ fm :: fms2) =
      (match TransformEngine.builtins fm.transform with
        | some f =>
            f (TransformEngine.getSourceValue fm.source_field records [])
              fm.transform_config [] []
        | Option.none =>
            .ok (.str (pyStr
              (TransformEngine.getSourceValue fm.source_field records [])))) := by
  induction fms1 with
  | nil =>
      rw [List.nil_append]
      unfold TransformEngine.idLoop
      rw [if_pos (by simp [hid]), if_pos (by simp [ht])]
  | cons x rest ih =>
      rw [List.cons_append]
      unfold TransformEngine.idLoop
      by_cases hx : x.target_field = "id"
      · rw [if_pos (by simp [hx]),
          if_neg (by simp [h1 x (List.mem_cons_self _ _) hx])]
        exact ih (fun y hy => h1 y (List.mem_cons_of_mem _ hy))
      · rw [if_neg (by simp [hx])]
        exact ih (fun y hy => h1 y (List.mem_cons_of_mem _ hy))

/-- C5 (amended): if no field mapping targeting `"id"` resolves to a truthy
source value (resolution is against an EMPTY per-service map, so
service-prefixed paths resolve to absent here), the id is the synthesized
`"{sourceService}_{sourceId}"` of the first source record (empty string
with no records); the first mapping targeting `"id"` whose resolved value
IS truthy decides the id — through its transform when the tag names a
built-in operator, else through `str` of the value. -/
theorem c5_target_id_derivation (records : List SourceRecord)
    (m : EntityMapping) :
    ((∀ fm ∈ m.field_mappings, fm.target_field = "id" →
        (TransformEngine.getSourceValue fm.source_field records []).truthy =
          false) →
      TransformEngine.generateTargetId records m =
        .ok (.str (fallbackId records))) ∧
    (∀ (fms1 : List FieldMapping) (fm : FieldMapping)
        (fms2 : List FieldMapping),
      m.field_mappings = fms1 ++ fm :: fms2 →
      (∀ x ∈ fms1, x.target_field = "id" →
        (TransformEngine.getSourceValue x.source_field records []).truthy =
          false) →
      fm.target_field = "id" →
      (TransformEngine.getSourceValue fm.source_field records []).truthy =
        true →
      TransformEngine.generateTargetId records m =
        (match TransformEngine.builtins fm.transform with
          | some f =>
              f (TransformEngine.getSourceValue fm.source_field records [])
                fm.transform_config [] []
          | Option.none =>
              .ok (.str (pyStr
                (TransformEngine.getSourceValue fm.source_field
                  records []))))) := by
  constructor
  · intro h
    exact idLoop_all_falsy records m.field_mappings h
  · intro fms1 fm fms2 heq h1 hid ht
    unfold TransformEngine.generateTargetId
    rw [heq]
    exact idLoop_first_truthy records fms1 fm fms2 h1 hid ht

/-- C5 witness: with no mapping targeting `"id"`, the id is the synthesized
service-prefixed source id. -/
theorem c5_target_id_witness :
    TransformEngine.generateTargetId [c5record] w6mapping =
      .ok (.str "stripe_s1") :=
  (c5_target_id_derivation [c5record] w6mapping).1
    (by intro fm hfm hid
        simp only [w6mapping] at hfm
        rw [List.mem_singleton] at hfm
        subst hfm
        exact absurd hid (by decide))

/-! ## Unknown-transform fallback lemmas (C7) -/

theorem writeBack_warnings (st : TransformEngine.FieldState)
    (fm : FieldMapping) (v : Val) :
    (TransformEngine.writeBack st fm v).warnings = st.warnings := by
  simp only [TransformEngine.writeBack]
  split <;> split
  · rfl
  · split <;> rfl
  · rfl
  · split <;> rfl

theorem writeBack_set_warnings (st : TransformEngine.FieldState)
    (w : List String) (fm : FieldMapping) (v : Val) :
    TransformEngine.writeBack { st with warnings := w } fm v =
      { TransformEngine.writeBack st fm v with warnings := w } := by
  simp only [TransformEngine.writeBack]
  split <;> split
  · rfl
  · split <;> rfl
  · rfl
  · split <;> rfl

/-- C7 (amended): a field mapping whose transform tag is neither built in
nor registered (nor a `custom` tag resolving to a registered function) is
processed exactly like the same mapping with the `direct` operator — same
output data, same recorded errors (so a failing nested write still records
a transform error, exactly as it would for `direct`) — except that one
`Unknown transform` warning is appended. -/
theorem c7_unknown_transform_fallback
    (customs : List (String × TransformEngine.TFn))
    (records : List SourceRecord) (combined ctx : Dct)
    (st : TransformEngine.FieldState) (fm : FieldMapping)
    (hunknown : TransformEngine.resolveTransform customs fm = Option.none)
    (hdirect : TransformEngine.customsGet customs "direct" = Option.none)
    (hcond : fm.condition = Option.none) :
    (TransformEngine.processField customs records combined ctx st fm).data =
      (TransformEngine.processField customs records combined ctx st
        { fm with transform := "direct" }).data ∧
    (TransformEngine.processField customs records combined ctx st
        fm).errors =
      (TransformEngine.processField customs records combined ctx st
        { fm with transform := "direct" }).errors ∧
    (TransformEngine.processField customs records combined ctx st
        fm).warnings =
      (TransformEngine.processField customs records combined ctx st
        { fm with transform := "direct" }).warnings ++
        ["Unknown transform: " ++ fm.transform ++ ", using direct copy"] := by
  have hresD : TransformEngine.resolveTransform customs
      { fm with transform := "direct" } = some TransformEngine.tDirect := by
    unfold TransformEngine.resolveTransform
    simp [hdirect, TransformEngine.builtins]
  unfold TransformEngine.processField
  rw [hunknown, hresD, hcond]
  refine ⟨?_, ?_, ?_⟩ <;>
    simp only [Bool.false_eq_true, if_false, TransformEngine.tDirect,
      writeBack_set_warnings, writeBack_warnings] <;>
    rfl

/-- C7 witness: the amended fallback at a concrete unknown-operator
mapping. -/
theorem c7_unknown_transform_fallback_witness :
    (TransformEngine.processField [] [c7record]
        (TransformEngine.combinedData [c7record]) [] {} w7fm).warnings =
      (TransformEngine.processField [] [c7record]
        (TransformEngine.combinedData [c7record]) [] {}
        { w7fm with transform := "direct" }).warnings ++
        ["Unknown transform: " ++ w7fm.transform ++ ", using direct copy"] :=
  (c7_unknown_transform_fallback [] [c7record]
    (TransformEngine.combinedData [c7record]) [] {} w7fm rfl rfl rfl).2.2

/-! ## Calendar lemmas (C9) -/

theorem yearLen_pos (y : Nat) : 1 ≤ PyTime.yearLen y := by
  unfold PyTime.yearLen
  split <;> omega

theorem daysInYearsAux_ge : ∀ (n y : Nat), n ≤ PyTime.daysInYearsAux n y := by
  intro n
  induction n with
  | zero => intro y; exact Nat.zero_le _
  | succ n ih =>
      intro y
      have h1 : PyTime.daysInYearsAux (n + 1) y =
          PyTime.yearLen y + PyTime.daysInYearsAux n (y + 1) := rfl
      have h2 := yearLen_pos y
      have h3 := ih (y + 1)
      omega

theorem daysInYearsAux_split : ∀ (a b y : Nat),
    PyTime.daysInYearsAux (a + b) y =
      PyTime.daysInYearsAux a y + PyTime.daysInYearsAux b (y + a) := by
  intro a
  induction a with
  | zero =>
      intro b y
      simp [PyTime.daysInYearsAux]
  | succ a iha =>
      intro b y
      have h1 : a + 1 + b = (a + b) + 1 := by omega
      have h2 : PyTime.daysInYearsAux ((a + b) + 1) y =
          PyTime.yearLen y + PyTime.daysInYearsAux (a + b) (y + 1) := rfl
      have h3 : PyTime.daysInYearsAux (a + 1) y =
          PyTime.yearLen y + PyTime.daysInYearsAux a (y + 1) := rfl
      have h4 := iha b (y + 1)
      have h5 : y + 1 + a = y + (a + 1) := by omega
      rw [h1, h2, h3, h4, h5]
      omega

/-- The year loop of `fromtimestamp`: with enough fuel it lands in the year
whose days it has not fully consumed. -/
theorem yearWalk_spec : ∀ (fuel d y : Nat),
    d < PyTime.daysInYearsAux fuel y →
    ∃ k r, PyTime.yearWalk fuel d y = (y + k, r) ∧
      PyTime.daysInYearsAux k y + r = d ∧ r < PyTime.yearLen (y + k) := by
  intro fuel
  induction fuel with
  | zero =>
      intro d y h
      simp [PyTime.daysInYearsAux] at h
  | succ fuel ih =>
      intro d y h
      by_cases hd : d < PyTime.yearLen y
      · refine ⟨0, d, ?_, by simp [PyTime.daysInYearsAux], by simpa using hd⟩
        show PyTime.yearWalk (fuel + 1) d y = (y + 0, d)
        unfold PyTime.yearWalk
        rw [if_pos hd]
        simp
      · push_neg at hd
        have h2 : d - PyTime.yearLen y < PyTime.daysInYearsAux fuel (y + 1) := by
          have h3 : PyTime.daysInYearsAux (fuel + 1) y =
              PyTime.yearLen y + PyTime.daysInYearsAux fuel (y + 1) := rfl
          omega
        obtain ⟨k, r, hw, hsum, hr⟩ := ih (d - PyTime.yearLen y) (y + 1) h2
        refine ⟨k + 1, r, ?_, ?_, ?_⟩
        · show PyTime.yearWalk (fuel + 1) d y = (y + (k + 1), r)
          unfold PyTime.yearWalk
          rw [if_neg (by omega), hw]
          have h6 : y + 1 + k = y + (k + 1) := by omega
          rw [h6]
        · have h7 : PyTime.daysInYearsAux (k + 1) y =
              PyTime.yearLen y + PyTime.daysInYearsAux k (y + 1) := rfl
          omega
        · have h8 : y + (k + 1) = y + 1 + k := by omega
          rw [h8]
          exact hr

/-- The month loop of `fromtimestamp`: it lands in the month whose length
the remaining day count does not reach. -/
theorem monthWalk_spec : ∀ (ms : List Nat) (d m : Nat), d < ms.sum →
    ∃ j, j < ms.length ∧
      PyTime.monthWalk d m ms = (m + j, d - (ms.take j).sum + 1) ∧
      (ms.take j).sum ≤ d ∧ d - (ms.take j).sum < ms.getD j 0 := by
  intro ms
  induction ms with
  | nil => intro d m h; simp at h
  | cons ml rest ih =>
      intro d m h
      by_cases hd : d < ml
      · refine ⟨0, by simp, ?_, by simp, by simpa using hd⟩
        show PyTime.monthWalk d m (ml :: rest) = (m + 0, d - 0 + 1)
        unfold PyTime.monthWalk
        rw [if_pos hd]
        simp
      · push_neg at hd
        have h2 : d - ml < rest.sum := by
          rw [List.sum_cons] at h
          omega
        obtain ⟨j, hj, hw, hts, hlt⟩ := ih (d - ml) (m + 1) h2
        have htake : ((ml :: rest).take (j + 1)).sum = ml + (rest.take j).sum := by
          rw [List.take_succ_cons, List.sum_cons]
        refine ⟨j + 1, by simpa using hj, ?_, ?_, ?_⟩
        · show PyTime.monthWalk d m (ml :: rest) =
            (m + (j + 1), d - ((ml :: rest).take (j + 1)).sum + 1)
          unfold PyTime.monthWalk
          rw [if_neg (by omega), hw, htake]
          have e1 : m + 1 + j = m + (j + 1) := by omega
          have e2 : d - ml - (rest.take j).sum + 1 =
              d - (ml + (rest.take j).sum) + 1 := by omega
          rw [e1, e2]
        · rw [htake]
          omega
        · rw [htake, List.getD_cons_succ]
          omega

theorem monthsOf_length (y : Nat) : (PyTime.monthsOf y).length = 12 := rfl

theorem sum_monthsOf (y : Nat) :
    (PyTime.monthsOf y).sum = PyTime.yearLen y := by
  unfold PyTime.monthsOf PyTime.yearLen
  by_cases h : PyTime.isLeap y = true
  · rw [if_pos h, if_pos h]
    rfl
  · rw [if_neg h, if_neg h]
    rfl

theorem monthLen_le31 (y m : Nat) : PyTime.monthLen y m ≤ 31 := by
  unfold PyTime.monthLen PyTime.monthsOf
  generalize m - 1 = i
  rcases i with _ | _ | _ | _ | _ | _ | _ | _ | _ | _ | _ | _ | i <;>
    simp [List.getD] <;> split <;> omega

theorem isDigit_digitChar (x : Nat) :
    (PyTime.digitChar x).isDigit = true := by
  have h10 : x % 10 < 10 := Nat.mod_lt _ (by omega)
  unfold PyTime.digitChar
  revert h10
  generalize x % 10 = r
  intro h10
  interval_cases r <;> rfl

theorem charVal_digitChar (x : Nat) :
    PyTime.charVal (PyTime.digitChar x) = x % 10 := by
  have h10 : x % 10 < 10 := Nat.mod_lt _ (by omega)
  unfold PyTime.digitChar PyTime.charVal
  revert h10
  generalize x % 10 = r
  intro h10
  interval_cases r <;> rfl

/-- Parsing inverts formatting on every in-range datetime. -/
theorem parseISO_isoformat (y m d h mi s : Nat)
    (hy1 : 1 ≤ y) (hy : y ≤ 9999) (hm1 : 1 ≤ m) (hm : m ≤ 12)
    (hd1 : 1 ≤ d) (hd : d ≤ PyTime.monthLen y m)
    (hh : h < 24) (hmi : mi < 60) (hs : s < 60) :
    PyTime.parseISO (PyTime.isoformat ⟨y, m, d, h, mi, s⟩) =
      some ⟨y, m, d, h, mi, s⟩ := by
  have hd31 : d ≤ 31 := le_trans hd (monthLen_le31 y m)
  have hlist : (PyTime.isoformat ⟨y, m, d, h, mi, s⟩).toList =
      [PyTime.digitChar (y / 1000), PyTime.digitChar (y / 100),
       PyTime.digitChar (y / 10), PyTime.digitChar y, Char.ofNat 45,
       PyTime.digitChar (m / 10), PyTime.digitChar m, Char.ofNat 45,
       PyTime.digitChar (d / 10), PyTime.digitChar d, Char.ofNat 84,
       PyTime.digitChar (h / 10), PyTime.digitChar h, Char.ofNat 58,
       PyTime.digitChar (mi / 10), PyTime.digitChar mi, Char.ofNat 58,
       PyTime.digitChar (s / 10), PyTime.digitChar s] := rfl
  unfold PyTime.parseISO
  rw [hlist]
  simp only [isDigit_digitChar, charVal_digitChar, List.all_cons,
    List.all_nil, Bool.and_self, Bool.and_true, and_self, and_true,
    true_and, if_true]
  have ey : ((y / 1000 % 10 * 10 + y / 100 % 10) * 10 + y / 10 % 10) * 10 +
      y % 10 = y := by omega
  have em : m / 10 % 10 * 10 + m % 10 = m := by omega
  have ed : d / 10 % 10 * 10 + d % 10 = d := by omega
  have eh : h / 10 % 10 * 10 + h % 10 = h := by omega
  have emi : mi / 10 % 10 * 10 + mi % 10 = mi := by omega
  have es : s / 10 % 10 * 10 + s % 10 = s := by omega
  rw [ey, em, ed, eh, emi, es]
  rw [if_pos ⟨hy1, hm1, hm, hd1, hd, hh, hmi, hs⟩]

/-- `fromtimestamp` succeeds on every epoch second in `[0, maxTimestamp]`,
its ISO rendering parses back to the same datetime, and `timestamp()`
returns the original second. -/
theorem fromtimestamp_roundtrip (n : Int) (h0 : 0 ≤ n)
    (h1 : n ≤ PyTime.maxTimestamp) :
    ∃ f : PyTime.DT, PyTime.fromtimestampUTC n = some f ∧
      PyTime.parseISO (PyTime.isoformat f) = some f ∧
      PyTime.timestampUTC f = n := by
  have he : PyTime.epochShift = 62135596800 := rfl
  have hmax : PyTime.maxTimestamp = 253402300799 := rfl
  have hcond : -(PyTime.epochShift : Int) ≤ n ∧ n ≤ PyTime.maxTimestamp :=
    ⟨by omega, h1⟩
  have hDle : (n + (PyTime.epochShift : Int)).toNat ≤ 315537897599 := by
    omega
  have hdays : (n + (PyTime.epochShift : Int)).toNat / 86400 ≤ 3652058 := by
    omega
  have hfuel : (n + (PyTime.epochShift : Int)).toNat / 86400 <
      PyTime.daysInYearsAux
        ((n + (PyTime.epochShift : Int)).toNat / 86400 + 1) 1 :=
    lt_of_lt_of_le (Nat.lt_succ_self _) (daysInYearsAux_ge _ 1)
  obtain ⟨k, r, hyw, hsum, hr⟩ := yearWalk_spec
    ((n + (PyTime.epochShift : Int)).toNat / 86400 + 1)
    ((n + (PyTime.epochShift : Int)).toNat / 86400) 1 hfuel
  have h99 : PyTime.daysInYearsAux 9999 1 = 3652059 := by
    have s1 : PyTime.daysInYearsAux 1000 1 = 365242 := rfl
    have s2 : PyTime.daysInYearsAux 1000 1001 = 365243 := rfl
    have s3 : PyTime.daysInYearsAux 1000 2001 = 365242 := rfl
    have s4 : PyTime.daysInYearsAux 1000 3001 = 365243 := rfl
    have s5 : PyTime.daysInYearsAux 1000 4001 = 365242 := rfl
    have s6 : PyTime.daysInYearsAux 1000 5001 = 365243 := rfl
    have s7 : PyTime.daysInYearsAux 1000 6001 = 365242 := rfl
    have s8 : PyTime.daysInYearsAux 1000 7001 = 365243 := rfl
    have s9 : PyTime.daysInYearsAux 1000 8001 = 365242 := rfl
    have s10 : PyTime.daysInYearsAux 999 9001 = 364877 := rfl
    have t1 := daysInYearsAux_split 1000 8999 1
    have t2 := daysInYearsAux_split 1000 7999 1001
    have t3 := daysInYearsAux_split 1000 6999 2001
    have t4 := daysInYearsAux_split 1000 5999 3001
    have t5 := daysInYearsAux_split 1000 4999 4001
    have t6 := daysInYearsAux_split 1000 3999 5001
    have t7 := daysInYearsAux_split 1000 2999 6001
    have t8 := daysInYearsAux_split 1000 1999 7001
    have t9 := daysInYearsAux_split 1000 999 8001
    norm_num at t1 t2 t3 t4 t5 t6 t7 t8 t9
    omega
  have hy9999 : 1 + k ≤ 9999 := by
    by_contra hcon
    push_neg at hcon
    have hk9 : k = 9999 + (k - 9999) := by omega
    have hsplit := daysInYearsAux_split 9999 (k - 9999) 1
    rw [← hk9] at hsplit
    omega
  obtain ⟨j, hj, hmw, htsum, hlt⟩ := monthWalk_spec
    (PyTime.monthsOf (1 + k)) r 1 (by rw [sum_monthsOf]; exact hr)
  have hj12 : j < 12 := by rw [monthsOf_length] at hj; exact hj
  have hml : PyTime.monthLen (1 + k) (1 + j) =
      (PyTime.monthsOf (1 + k)).getD j 31 := by
    unfold PyTime.monthLen
    rw [show 1 + j - 1 = j from by omega]
  have hgd : (PyTime.monthsOf (1 + k)).getD j 31 =
      (PyTime.monthsOf (1 + k)).getD j 0 := by
    rw [List.getD_eq_getElem _ _ hj, List.getD_eq_getElem _ _ hj]
  have hdle : r - ((PyTime.monthsOf (1 + k)).take j).sum + 1 ≤
      PyTime.monthLen (1 + k) (1 + j) := by
    omega
  have hfrom : PyTime.fromtimestampUTC n = some
      ⟨1 + k, 1 + j, r - ((PyTime.monthsOf (1 + k)).take j).sum + 1,
       (n + (PyTime.epochShift : Int)).toNat % 86400 / 3600,
       (n + (PyTime.epochShift : Int)).toNat % 86400 % 3600 / 60,
       (n + (PyTime.epochShift : Int)).toNat % 86400 % 60⟩ := by
    unfold PyTime.fromtimestampUTC
    rw [if_pos hcond]
    simp only [hyw]
    simp only [hmw]
  have hday : PyTime.daysFromCivil (1 + k) (1 + j)
      (r - ((PyTime.monthsOf (1 + k)).take j).sum + 1) =
      (n + (PyTime.epochShift : Int)).toNat / 86400 := by
    unfold PyTime.daysFromCivil PyTime.daysInYears
      PyTime.daysInMonthsBefore
    rw [show 1 + k - 1 = k from by omega, show 1 + j - 1 = j from by omega]
    omega
  refine ⟨_, hfrom, ?_, ?_⟩
  · exact parseISO_isoformat (1 + k) (1 + j)
      (r - ((PyTime.monthsOf (1 + k)).take j).sum + 1) _ _ _
      (by omega) hy9999 (by omega) (by omega) (by omega) hdle
      (by omega) (by omega) (by omega)
  · show (PyTime.daysFromCivil (1 + k) (1 + j)
        (r - ((PyTime.monthsOf (1 + k)).take j).sum + 1) : Int) * 86400 +
      ((n + (PyTime.epochShift : Int)).toNat % 86400 / 3600 : Nat) * 3600 +
      ((n + (PyTime.epochShift : Int)).toNat % 86400 % 3600 / 60 : Nat) * 60 +
      ((n + (PyTime.epochShift : Int)).toNat % 86400 % 60 : Nat) -
      (PyTime.epochShift : Int) = n
    rw [hday]
    omega

/-- C9: for every integer number of epoch seconds `t` with
`0 ≤ t ≤ 253402300799` (the last second of year 9999, `datetime`'s
ceiling), `iso_to_unix` applied to the output of `unix_to_iso` returns `t`
— under the model's fixed-offset (UTC) local clock. -/
theorem c9_unix_iso_roundtrip (t : Nat)
    (ht : (t : Int) ≤ PyTime.maxTimestamp) :
    (TransformEngine.tUnixToIso (.int (t : Int)) [] [] []).bind
      (fun sv => TransformEngine.tIsoToUnix sv [] [] []) =
      .ok (.int (t : Int)) := by
  obtain ⟨f, hfrom, hparse, hts⟩ := fromtimestamp_roundtrip (t : Int)
    (by omega) ht
  have hden : (((t : Int) : Rat)).den = 1 := Rat.den_intCast _
  have hnum : (((t : Int) : Rat)).num = (t : Int) := Rat.num_intCast _
  have h1 : TransformEngine.tUnixToIso (.int (t : Int)) [] [] [] =
      .ok (.str (PyTime.isoformat f)) := by
    simp only [TransformEngine.tUnixToIso, pyFloat?, hden, hnum, hfrom,
      beq_self_eq_true, if_true]
  rw [h1]
  show TransformEngine.tIsoToUnix (.str (PyTime.isoformat f)) [] [] [] =
    .ok (.int (t : Int))
  simp only [TransformEngine.tIsoToUnix, hparse, hts]

/-- C9 witness: the round trip at `t = 0` (the epoch,
`1970-01-01T00:00:00`). -/
theorem c9_unix_iso_roundtrip_witness :
    ((0 : Nat) : Int) ≤ PyTime.maxTimestamp ∧
    (TransformEngine.tUnixToIso (.int ((0 : Nat) : Int)) [] [] []).bind
      (fun sv => TransformEngine.tIsoToUnix sv [] [] []) =
      .ok (.int ((0 : Nat) : Int)) :=
  ⟨by decide, c9_unix_iso_roundtrip 0 (by decide)⟩

/-! ## Tier-mapping lemmas (C4) -/

theorem tierUpTos?_length : ∀ (tiers : List Val) (us : List (Option Int)),
    TransformEngine.tierUpTos? tiers = some us → us.length = tiers.length := by
  intro tiers
  induction tiers with
  | nil =>
      intro us h
      simp [TransformEngine.tierUpTos?] at h
      simp [← h]
  | cons t rest ih =>
      intro us h
      unfold TransformEngine.tierUpTos? at h
      cases t <;> simp at h
      case dict kvs =>
        cases hu : sget? kvs "up_to" with
        | none =>
            rw [hu] at h
            cases hr : TransformEngine.tierUpTos? rest with
            | none => rw [hr] at h; simp at h
            | some us' =>
                rw [hr] at h
                simp at h
                rw [← h]
                simp [ih us' hr]
        | some v =>
            rw [hu] at h
            cases v <;> simp at h
            case int k =>
              cases hr : TransformEngine.tierUpTos? rest with
              | none => rw [hr] at h; simp at h
              | some us' =>
                  rw [hr] at h
                  simp at h
                  rw [← h]
                  simp [ih us' hr]

theorem pyAddOne_pyOr_int (k : Int) :
    TransformEngine.pyAddOne (pyOr (.int k) (.int 0)) = .ok (.int (k + 1)) := by
  by_cases hk : k = 0
  · subst hk; rfl
  · simp [pyOr, Val.truthy, hk, TransformEngine.pyAddOne]

theorem tierStart_zero (s : Int) (us : List (Option Int)) :
    TransformEngine.tierStart s us 0 = s := by
  cases us <;> simp [TransformEngine.tierStart]

theorem tierStart_cons (s : Int) (u : Option Int)
    (rest : List (Option Int)) (i : Nat) :
    TransformEngine.tierStart s (u :: rest) (i + 1) =
      TransformEngine.tierStart (TransformEngine.nextStart u) rest i := by
  simp [TransformEngine.tierStart]

theorem tierStart_getD : ∀ (us : List (Option Int)) (s : Int) (i : Nat)
    (k : Int), us.getD i Option.none = some k →
    TransformEngine.tierStart s us (i + 1) = k + 1 := by
  intro us
  induction us with
  | nil => intro s i k h; simp [List.getD] at h
  | cons u rest ih =>
      intro s i k h
      cases i with
      | zero =>
          simp [List.getD] at h
          subst h
          rw [tierStart_cons, tierStart_zero]
          rfl
      | succ j =>
          have h' : rest.getD j Option.none = some k := by
            simpa [List.getD] using h
          rw [tierStart_cons]
          exact ih _ j k h'

theorem dget_uVal (kvs : Dct) (u : Option Int)
    (hu : sget? kvs "up_to" = Option.map Val.int u) :
    dget kvs (.str "up_to") = TransformEngine.uVal u := by
  unfold sget? at hu
  unfold dget
  rw [hu]
  cases u <;> rfl

theorem dropLast_all_isSome_getD :
    ∀ (us : List (Option Int)) (i : Nat),
    us.dropLast.all Option.isSome = true → i + 1 < us.length →
    ∃ k : Int, us.getD i Option.none = some k := by
  intro us
  induction us with
  | nil => intro i _ hi; simp at hi
  | cons u rest ih =>
      intro i h hi
      cases rest with
      | nil => simp at hi
      | cons r rs =>
          rw [List.dropLast_cons₂, List.all_cons, Bool.and_eq_true] at h
          cases i with
          | zero =>
              obtain ⟨k, hk⟩ := Option.isSome_iff_exists.mp h.1
              exact ⟨k, by simp [List.getD, hk]⟩
          | succ j =>
              have := ih j h.2 (by simpa using hi)
              simpa [List.getD] using this

/-- The `field_mapping` copy loop never touches `starting_unit` and can only
rewrite `ending_unit` with the very value it already holds (benign
configurations map only `up_to` onto it). -/
theorem tierFold_sget (tkvs : Dct) : ∀ (fmap : Dct),
    (∀ kv ∈ fmap, pyEq kv.2 (.str "starting_unit") = false ∧
      (pyEq kv.2 (.str "ending_unit") = true → kv.1 = .str "up_to")) →
    ∀ (m : Dct),
    (dcontains tkvs (.str "up_to") = true →
      sget m "ending_unit" = dget tkvs (.str "up_to")) →
    sget (fmap.foldl (fun mm kv =>
        if dcontains tkvs kv.1 then dset mm kv.2 (dget tkvs kv.1) else mm)
      m) "starting_unit" = sget m "starting_unit" ∧
    sget (fmap.foldl (fun mm kv =>
        if dcontains tkvs kv.1 then dset mm kv.2 (dget tkvs kv.1) else mm)
      m) "ending_unit" = sget m "ending_unit" := by
  intro fmap
  induction fmap with
  | nil => intro _ m _; exact ⟨rfl, rfl⟩
  | cons kv rest ih =>
      intro hben m hend
      have hb := hben kv (List.mem_cons_self _ _)
      have hben' := fun x hx => hben x (List.mem_cons_of_mem _ hx)
      by_cases hc : dcontains tkvs kv.1 = true
      · have hstart : sget (dset m kv.2 (dget tkvs (kv.1)))
            "starting_unit" = sget m "starting_unit" := by
          unfold sget dget
          rw [dget?_dset_ne_str _ _ _ _ hb.1]
        have hendpres : sget (dset m kv.2 (dget tkvs (kv.1)))
            "ending_unit" = sget m "ending_unit" := by
          by_cases he : pyEq kv.2 (.str "ending_unit") = true
          · have hk1 : kv.1 = .str "up_to" := hb.2 he
            have hk2 : kv.2 = .str "ending_unit" :=
              (pyEq_str_right_iff _ _).mp he
            have hv : dget tkvs kv.1 = sget m "ending_unit" := by
              rw [hk1] at hc ⊢
              exact (hend hc).symm
            rw [hk2, hv]
            unfold sget dget
            rw [dget?_dset_self_str]
            rfl
          · unfold sget dget
            rw [dget?_dset_ne_str _ _ _ _ (by simpa using he)]
        have hih := ih hben' (dset m kv.2 (dget tkvs kv.1))
          (fun hcon => by rw [hendpres]; exact hend hcon)
        rw [List.foldl_cons, if_pos hc]
        exact ⟨hih.1.trans hstart, hih.2.trans hendpres⟩
      · rw [List.foldl_cons, if_neg hc]
        exact ih hben' m hend

/-- One step of the tier loop: with `up_to` as given, the band dict starts
from `starting_unit`/`ending_unit` and the next start is `(up_to or 0)+1`. -/
theorem tierGo_cons (fmap : Dct) (nul : Val) (s : Int) (kvs : Dct)
    (rest acc : List Val) (u : Option Int)
    (hu : sget? kvs "up_to" = Option.map Val.int u) :
    TransformEngine.tierGo fmap nul (.int s) (.dict kvs :: rest) acc =
      TransformEngine.tierGo fmap nul
        (.int (TransformEngine.nextStart u)) rest
        (Val.dict (fmap.foldl (fun m kv =>
            if dcontains kvs kv.1 then dset m kv.2 (dget kvs kv.1) else m)
          [(.str "starting_unit", .int s),
           (.str "ending_unit", TransformEngine.endVal nul u)]) :: acc) := by
  have hupto : dget kvs (.str "up_to") = TransformEngine.uVal u :=
    dget_uVal kvs u hu
  show Except.bind
      (TransformEngine.pyAddOne (pyOr (dget kvs (.str "up_to")) (.int 0)))
      (fun newStart => TransformEngine.tierGo fmap nul newStart rest
        (Val.dict (fmap.foldl (fun m kv =>
            if dcontains kvs kv.1 then dset m kv.2 (dget kvs kv.1) else m)
          (sset [(.str "starting_unit", .int s)] "ending_unit"
            (match dget kvs (.str "up_to") with
              | .none => nul
              | v => v))) :: acc)) = _
  rw [hupto]
  cases u with
  | none => rfl
  | some k =>
      rw [show TransformEngine.uVal (some k) = Val.int k from rfl,
        pyAddOne_pyOr_int k]
      rfl

/-- The tier loop: given a well-shaped tier list, each output band `i`
starts at the running start value and ends at its tier's `up_to` (or the
sentinel). -/
theorem tierGo_spec (fmap : Dct) (nul : Val)
    (hben : ∀ kv ∈ fmap, pyEq kv.2 (.str "starting_unit") = false ∧
      (pyEq kv.2 (.str "ending_unit") = true → kv.1 = .str "up_to")) :
    ∀ (tiers : List Val) (us : List (Option Int)),
    TransformEngine.tierUpTos? tiers = some us →
    us.dropLast.all Option.isSome = true →
    ∀ (s : Int) (acc : List Val),
    ∃ bands : List Val,
      TransformEngine.tierGo fmap nul (.int s) tiers acc =
        .ok (.list (acc.reverse ++ bands)) ∧
      bands.length = tiers.length ∧
      (∀ i, i < us.length →
        TransformEngine.bandField bands i "starting_unit" =
          .int (TransformEngine.tierStart s us i) ∧
        TransformEngine.bandField bands i "ending_unit" =
          TransformEngine.endVal nul (us.getD i Option.none)) := by
  intro tiers
  induction tiers with
  | nil =>
      intro us hshape _ s acc
      simp [TransformEngine.tierUpTos?] at hshape
      subst hshape
      refine ⟨[], by simp [TransformEngine.tierGo], rfl, ?_⟩
      intro i hi
      simp at hi
  | cons t rest ih =>
      intro us hshape hlast s acc
      unfold TransformEngine.tierUpTos? at hshape
      cases t <;> simp at hshape
      case dict kvs =>
        obtain ⟨u, us', hus, hrest, hu⟩ :
            ∃ (u : Option Int) (us' : List (Option Int)), us = u :: us' ∧
              TransformEngine.tierUpTos? rest = some us' ∧
              sget? kvs "up_to" = Option.map Val.int u := by
          cases hsg : sget? kvs "up_to" with
          | none =>
              rw [hsg] at hshape
              cases hr : TransformEngine.tierUpTos? rest with
              | none => rw [hr] at hshape; simp at hshape
              | some us0 =>
                  rw [hr] at hshape
                  simp at hshape
                  exact ⟨Option.none, us0, hshape.symm, rfl, rfl⟩
          | some v =>
              rw [hsg] at hshape
              cases v <;> simp at hshape
              case int k =>
                cases hr : TransformEngine.tierUpTos? rest with
                | none => rw [hr] at hshape; simp at hshape
                | some us0 =>
                    rw [hr] at hshape
                    simp at hshape
                    exact ⟨some k, us0, hshape.symm, rfl, rfl⟩
        subst hus
        have hlast' : us'.dropLast.all Option.isSome = true := by
          cases us' with
          | nil => rfl
          | cons a b =>
              rw [List.dropLast_cons₂, List.all_cons, Bool.and_eq_true]
                at hlast
              exact hlast.2
        have hend : dcontains kvs (.str "up_to") = true →
            sget [(.str "starting_unit", Val.int s),
              (.str "ending_unit", TransformEngine.endVal nul u)]
              "ending_unit" = dget kvs (.str "up_to") := by
          intro hcon
          rw [dget_uVal kvs u hu]
          cases u with
          | none =>
              exfalso
              unfold dcontains at hcon
              unfold sget? at hu
              rw [hu] at hcon
              simp at hcon
          | some k => rfl
        have hfold := tierFold_sget kvs fmap hben
          [(.str "starting_unit", .int s),
           (.str "ending_unit", TransformEngine.endVal nul u)] hend
        obtain ⟨bands', heq', hlen', hfields'⟩ := ih us' hrest hlast'
          (TransformEngine.nextStart u)
          (Val.dict (fmap.foldl (fun m kv =>
              if dcontains kvs kv.1 then dset m kv.2 (dget kvs kv.1) else m)
            [(.str "starting_unit", .int s),
             (.str "ending_unit", TransformEngine.endVal nul u)]) :: acc)
        refine ⟨Val.dict (fmap.foldl (fun m kv =>
            if dcontains kvs kv.1 then dset m kv.2 (dget kvs kv.1) else m)
          [(.str "starting_unit", .int s),
           (.str "ending_unit", TransformEngine.endVal nul u)]) :: bands',
          ?_, by simp [hlen'], ?_⟩
        · rw [tierGo_cons fmap nul s kvs rest acc u hu, heq']
          simp
        · intro i hi
          cases i with
          | zero =>
              constructor
              · rw [tierStart_zero]
                exact hfold.1.trans rfl
              · exact hfold.2.trans rfl
          | succ j =>
              have hj : j < us'.length := by simpa using hi
              obtain ⟨h1, h2⟩ := hfields' j hj
              constructor
              · rw [tierStart_cons]
                exact h1
              · exact h2

/-- C4: for every ascending, well-shaped tier list (every tier but possibly
the last carrying an integer `up_to`) and any configuration whose
`field_mapping` does not redirect the band-boundary keys, the output bands
are contiguous — band `i+1` starts at band `i`'s `ending_unit + 1` — the
first band starts at 1, and a last open-ended tier gets the configured
sentinel (default the string `"inf"`) as its `ending_unit`. -/
theorem c4_tier_bands_contiguous (tiers : List Val)
    (us : List (Option Int)) (cfg data ctx : Dct)
    (hshape : TransformEngine.tierUpTos? tiers = some us)
    (hbutlast : us.dropLast.all Option.isSome = true)
    (hasc : TransformEngine.ascUpTos us = true)
    (hbenign : TransformEngine.benignFieldMapping cfg = true) :
    ∃ bands : List Val,
      TransformEngine.tTierMapping (.list tiers) cfg data ctx =
        .ok (.list bands) ∧
      bands.length = tiers.length ∧
      (∀ i, i + 1 < bands.length →
        ∃ k : Int,
          TransformEngine.bandField bands i "ending_unit" = .int k ∧
          TransformEngine.bandField bands (i + 1) "starting_unit" =
            .int (k + 1)) ∧
      (bands ≠ [] →
        TransformEngine.bandField bands 0 "starting_unit" = .int 1) ∧
      (∀ (h : us ≠ []), us.getLast h = Option.none →
        TransformEngine.bandField bands (bands.length - 1) "ending_unit" =
          sgetD cfg "null_up_to" (.str "inf")) := by
  have hulen : us.length = tiers.length := tierUpTos?_length tiers us hshape
  have main : ∀ (fmap : Dct),
      (∀ kv ∈ fmap, pyEq kv.2 (.str "starting_unit") = false ∧
        (pyEq kv.2 (.str "ending_unit") = true → kv.1 = .str "up_to")) →
      ∀ (bands : List Val),
      TransformEngine.tierGo fmap (sgetD cfg "null_up_to" (.str "inf"))
        (.int 1) tiers [] = .ok (.list bands) →
      bands.length = tiers.length →
      (∀ i, i < us.length →
        TransformEngine.bandField bands i "starting_unit" =
          .int (TransformEngine.tierStart 1 us i) ∧
        TransformEngine.bandField bands i "ending_unit" =
          TransformEngine.endVal (sgetD cfg "null_up_to" (.str "inf"))
            (us.getD i Option.none)) →
      (∀ i, i + 1 < bands.length →
        ∃ k : Int,
          TransformEngine.bandField bands i "ending_unit" = .int k ∧
          TransformEngine.bandField bands (i + 1) "starting_unit" =
            .int (k + 1)) ∧
      (bands ≠ [] →
        TransformEngine.bandField bands 0 "starting_unit" = .int 1) ∧
      (∀ (h : us ≠ []), us.getLast h = Option.none →
        TransformEngine.bandField bands (bands.length - 1) "ending_unit" =
          sgetD cfg "null_up_to" (.str "inf")) := by
    intro fmap _ bands _ hblen hfields
    refine ⟨?_, ?_, ?_⟩
    · intro i hi
      have hi' : i + 1 < us.length := by omega
      obtain ⟨k, hk⟩ := dropLast_all_isSome_getD us i hbutlast hi'
      refine ⟨k, ?_, ?_⟩
      · have := (hfields i (by omega)).2
        rw [hk] at this
        exact this
      · have := (hfields (i + 1) (by omega)).1
        rw [tierStart_getD us 1 i k hk] at this
        exact this
    · intro hne
      have h0 : 0 < us.length := by
        rw [hulen, ← hblen]
        exact List.length_pos_of_ne_nil hne
      have := (hfields 0 h0).1
      rw [tierStart_zero] at this
      exact this
    · intro hne hlastnone
      have h0 : 0 < us.length := List.length_pos_of_ne_nil hne
      have hlt : us.length - 1 < us.length := by omega
      have := (hfields (us.length - 1) hlt).2
      rw [List.getLast_eq_getElem] at hlastnone
      rw [List.getD_eq_getElem us Option.none hlt, hlastnone] at this
      rw [hblen, ← hulen]
      exact this
  unfold TransformEngine.tTierMapping
  cases hfm : sget? cfg "field_mapping" with
  | none =>
      have hben : ∀ kv ∈ TransformEngine.tierDefaultFieldMapping,
          pyEq kv.2 (.str "starting_unit") = false ∧
          (pyEq kv.2 (.str "ending_unit") = true →
            kv.1 = .str "up_to") := by
        intro kv hkv
        rcases List.mem_cons.mp hkv with rfl | hkv
        · exact ⟨rfl, fun _ => rfl⟩
        · rcases List.mem_singleton.mp hkv with rfl
          exact ⟨rfl, fun h => by simp [pyEq] at h⟩
      obtain ⟨bands, heq, hblen, hfields⟩ := tierGo_spec
        TransformEngine.tierDefaultFieldMapping
        (sgetD cfg "null_up_to" (.str "inf")) hben tiers us hshape
        hbutlast 1 []
      refine ⟨bands, ?_, by rw [hblen], ?_⟩
      · have hfm2 : sgetD cfg "field_mapping"
            (.dict TransformEngine.tierDefaultFieldMapping) =
            .dict TransformEngine.tierDefaultFieldMapping := by
          unfold sgetD dgetD
          unfold sget? at hfm
          rw [hfm]
          rfl
        rw [hfm2]
        exact heq
      · exact main _ hben bands (by simpa using heq) hblen hfields
  | some v =>
      unfold TransformEngine.benignFieldMapping at hbenign
      rw [hfm] at hbenign
      cases v <;> simp at hbenign
      case dict fmap =>
        have hben : ∀ kv ∈ fmap,
            pyEq kv.2 (.str "starting_unit") = false ∧
            (pyEq kv.2 (.str "ending_unit") = true →
              kv.1 = .str "up_to") := by
          intro kv hkv
          have := hbenign kv.1 kv.2 hkv
          refine ⟨by simpa using this.1, fun he => ?_⟩
          rcases this.2 with h | h
          · exact absurd he (by simp [h])
          · exact (pyEq_str_right_iff _ _).mp h
        obtain ⟨bands, heq, hblen, hfields⟩ := tierGo_spec fmap
          (sgetD cfg "null_up_to" (.str "inf")) hben tiers us hshape
          hbutlast 1 []
        refine ⟨bands, ?_, by rw [hblen], ?_⟩
        · have hfm2 : sgetD cfg "field_mapping"
              (.dict TransformEngine.tierDefaultFieldMapping) =
              .dict fmap := by
            unfold sgetD dgetD
            unfold sget? at hfm
            rw [hfm]
            rfl
          rw [hfm2]
          exact heq
        · exact main _ hben bands (by simpa using heq) hblen hfields

/-- C4 witness: two ascending tiers, the second open-ended, with the empty
configuration. -/
theorem c4_tier_bands_contiguous_witness :
    TransformEngine.tierUpTos? w4tiers = some [some 10, Option.none] ∧
    ([some 10, Option.none] : List (Option Int)).dropLast.all
      Option.isSome = true ∧
    TransformEngine.ascUpTos [some 10, Option.none] = true ∧
    TransformEngine.benignFieldMapping [] = true ∧
    (∃ bands : List Val,
      TransformEngine.tTierMapping (.list w4tiers) [] [] [] =
        .ok (.list bands) ∧
      bands.length = w4tiers.length ∧
      (∀ i, i + 1 < bands.length →
        ∃ k : Int,
          TransformEngine.bandField bands i "ending_unit" = .int k ∧
          TransformEngine.bandField bands (i + 1) "starting_unit" =
            .int (k + 1)) ∧
      (bands ≠ [] →
        TransformEngine.bandField bands 0 "starting_unit" = .int 1) ∧
      (∀ (h : ([some 10, Option.none] : List (Option Int)) ≠ []),
        ([some 10, Option.none] : List (Option Int)).getLast h =
          Option.none →
        TransformEngine.bandField bands (bands.length - 1) "ending_unit" =
          sgetD [] "null_up_to" (.str "inf"))) :=
  ⟨rfl, rfl, rfl, rfl,
    c4_tier_bands_contiguous w4tiers [some 10, Option.none] [] [] []
      rfl rfl rfl rfl⟩

/-! ## Absent-input lemmas (C8) -/

theorem coalesceGo_empty (fs : List Val) :
    TransformEngine.coalesceGo [] fs = .ok .none := by
  induction fs with
  | nil => rfl
  | cons f rest ih => exact ih

theorem foldlM_compileStep_empty : ∀ (sf : Dct) (acc : Dct),
    sf.foldlM (TransformEngine.compileStep []) acc = .ok acc := by
  intro sf
  induction sf with
  | nil => intro acc; rfl
  | cons kv rest ih => intro acc; exact ih acc

/-- The rule loop of `conditional` cannot raise when every rule is a
dictionary: rule keys are only subscripted after a containment check. -/
theorem conditionalGo_ok : ∀ (conds : List Val),
    conds.all Val.isDict = true →
    ∀ (v : Val) (data ctx : Dct),
    ∃ r, TransformEngine.conditionalGo v data ctx conds = .ok r := by
  intro conds
  induction conds with
  | nil => intro _ v data ctx; exact ⟨v, rfl⟩
  | cons c rest ih =>
      intro hall v data ctx
      rw [List.all_cons, Bool.and_eq_true] at hall
      obtain ⟨hc, hrest⟩ := hall
      cases c <;> simp [Val.isDict] at hc
      case dict kvs =>
        unfold TransformEngine.conditionalGo
        simp only [pyIn, pyIndex, dcontains, bind, Except.bind, pure]
        cases h1 : dget? kvs (.str "value") with
        | some cv =>
            simp only [h1, Option.isSome_some, if_true]
            by_cases h2 : (pyStr v == pyStr cv) = true
            · simp only [h2, if_true]
              exact ⟨sget kvs "result", rfl⟩
            · simp only [Bool.not_eq_true] at h2
              simp only [h2, Bool.false_eq_true, if_false]
              cases h3 : dget? kvs (.str "if") with
              | some ci =>
                  simp only [h3, Option.isSome_some, if_true]
                  by_cases h4 : TransformEngine.evalCondition ci data ctx =
                      true
                  · simp only [h4, if_true]
                    exact ⟨sget kvs "then", rfl⟩
                  · simp only [Bool.not_eq_true] at h4
                    simp only [h4, Bool.false_eq_true, if_false]
                    cases h5 : dget? kvs (.str "default") with
                    | some d =>
                        simp only [h5, Option.isSome_some, if_true]
                        exact ⟨d, rfl⟩
                    | none =>
                        simp only [h5, Option.isSome_none,
                          Bool.false_eq_true, if_false]
                        exact ih hrest v data ctx
              | none =>
                  simp only [h3, Option.isSome_none, Bool.false_eq_true,
                    if_false]
                  cases h5 : dget? kvs (.str "default") with
                  | some d =>
                      simp only [h5, Option.isSome_some, if_true]
                      exact ⟨d, rfl⟩
                  | none =>
                      simp only [h5, Option.isSome_none, Bool.false_eq_true,
                        if_false]
                      exact ih hrest v data ctx
        | none =>
            simp only [h1, Option.isSome_none, Bool.false_eq_true, if_false]
            cases h3 : dget? kvs (.str "if") with
            | some ci =>
                simp only [h3, Option.isSome_some, if_true]
                by_cases h4 : TransformEngine.evalCondition ci data ctx = true
                · simp only [h4, if_true]
                  exact ⟨sget kvs "then", rfl⟩
                · simp only [Bool.not_eq_true] at h4
                  simp only [h4, Bool.false_eq_true, if_false]
                  cases h5 : dget? kvs (.str "default") with
                  | some d =>
                      simp only [h5, Option.isSome_some, if_true]
                      exact ⟨d, rfl⟩
                  | none =>
                      simp only [h5, Option.isSome_none, Bool.false_eq_true,
                        if_false]
                      exact ih hrest v data ctx
            | none =>
                simp only [h3, Option.isSome_none, Bool.false_eq_true,
                  if_false]
                cases h5 : dget? kvs (.str "default") with
                | some d =>
                    simp only [h5, Option.isSome_some, if_true]
                    exact ⟨d, rfl⟩
                | none =>
                    simp only [h5, Option.isSome_none, Bool.false_eq_true,
                      if_false]
                    exact ih hrest v data ctx

/-- C8: every built-in operator, applied to an absent (`None`) input with a
well-formed configuration and empty combined data and context, returns
normally (no exception is raised); in particular `direct`, `truncate` and
`uppercase` yield absent, `enum_map` yields the configured `default`, and
`default` yields the configured `value`. -/
theorem c8_absent_input_safety (name : String) (cfg : Dct)
    (hname : name ∈ TransformEngine.builtinNames)
    (hwf : TransformEngine.wfConfig name cfg = true) :
    (∃ r : Val, TransformEngine.applyBuiltin name .none cfg [] [] = .ok r) ∧
    ((name = "direct" ∨ name = "truncate" ∨ name = "uppercase") →
      TransformEngine.applyBuiltin name .none cfg [] [] = .ok .none) ∧
    (name = "enum_map" →
      TransformEngine.applyBuiltin name .none cfg [] [] =
        .ok (sget cfg "default")) ∧
    (name = "default" →
      TransformEngine.applyBuiltin name .none cfg [] [] =
        .ok (sget cfg "value")) := by
  simp only [TransformEngine.builtinNames, List.mem_cons,
    List.not_mem_nil, or_false] at hname
  rcases hname with rfl | rfl | rfl | rfl | rfl | rfl | rfl | rfl | rfl |
    rfl | rfl | rfl | rfl | rfl | rfl | rfl | rfl | rfl | rfl | rfl | rfl |
    rfl | rfl | rfl | rfl | rfl | rfl | rfl | rfl
  -- direct
  · exact ⟨⟨.none, rfl⟩, fun _ => rfl, fun h => absurd h (by decide),
      fun h => absurd h (by decide)⟩
  -- prefix_add
  · exact ⟨⟨.none, rfl⟩, fun _ => rfl, fun h => absurd h (by decide),
      fun h => absurd h (by decide)⟩
  -- prefix_strip
  · exact ⟨⟨.none, rfl⟩, fun _ => rfl, fun h => absurd h (by decide),
      fun h => absurd h (by decide)⟩
  -- prefix_strip_and_add
  · exact ⟨⟨.none, rfl⟩, fun _ => rfl, fun h => absurd h (by decide),
      fun h => absurd h (by decide)⟩
  -- split_name
  · exact ⟨⟨.none, rfl⟩, fun _ => rfl, fun h => absurd h (by decide),
      fun h => absurd h (by decide)⟩
  -- truncate
  · exact ⟨⟨.none, rfl⟩, fun _ => rfl, fun h => absurd h (by decide),
      fun h => absurd h (by decide)⟩
  -- uppercase
  · exact ⟨⟨.none, rfl⟩, fun _ => rfl, fun h => absurd h (by decide),
      fun h => absurd h (by decide)⟩
  -- lowercase
  · exact ⟨⟨.none, rfl⟩, fun _ => rfl, fun h => absurd h (by decide),
      fun h => absurd h (by decide)⟩
  -- enum_map
  · exact ⟨⟨sget cfg "default", rfl⟩, fun h => absurd h (by decide),
      fun _ => rfl, fun h => absurd h (by decide)⟩
  -- boolean_to_enum
  · exact ⟨⟨pyOr (sget cfg "false_value") (sget cfg "false"), rfl⟩,
      fun h => absurd h (by decide), fun h => absurd h (by decide),
      fun h => absurd h (by decide)⟩
  -- to_metadata
  · exact ⟨⟨.none, rfl⟩, fun _ => rfl, fun h => absurd h (by decide),
      fun h => absurd h (by decide)⟩
  -- merge
  · exact ⟨⟨.none, rfl⟩, fun _ => rfl, fun h => absurd h (by decide),
      fun h => absurd h (by decide)⟩
  -- array_map
  · exact ⟨⟨.none, rfl⟩, fun _ => rfl, fun h => absurd h (by decide),
      fun h => absurd h (by decide)⟩
  -- default
  · exact ⟨⟨sget cfg "value", rfl⟩, fun h => absurd h (by decide),
      fun h => absurd h (by decide), fun _ => rfl⟩
  -- coalesce
  · refine ⟨⟨.none, ?_⟩, fun h => absurd h (by decide),
      fun h => absurd h (by decide), fun h => absurd h (by decide)⟩
    show TransformEngine.tCoalesce .none cfg [] [] = .ok .none
    by_cases h : (sget cfg "fallback_field").truthy = true
    · simp [TransformEngine.tCoalesce, h, TransformEngine.probeData,
        bind, Except.bind, pure]
      rfl
    · simp [TransformEngine.tCoalesce, h]
  -- coalesce_fields
  · refine ⟨⟨.none, ?_⟩, fun h => absurd h (by decide),
      fun h => absurd h (by decide), fun h => absurd h (by decide)⟩
    show (do
      let fields ← pyIter (sgetD cfg "fallback_fields" (.list []))
      TransformEngine.coalesceGo [] fields) = .ok .none
    have hwf2 : (match sget? cfg "fallback_fields" with
        | Option.none => true
        | some (.list _) => true
        | some (.str _) => true
        | some (.dict _) => true
        | some _ => false) = true := hwf
    cases hff : sget? cfg "fallback_fields" with
    | none =>
        have hD : sgetD cfg "fallback_fields" (.list []) = .list [] := by
          unfold sgetD dgetD
          unfold sget? at hff
          rw [hff]
          rfl
        rw [hD]
        rfl
    | some w =>
        rw [hff] at hwf2
        have hD : sgetD cfg "fallback_fields" (.list []) = w := by
          unfold sgetD dgetD
          unfold sget? at hff
          rw [hff]
          rfl
        rw [hD]
        cases w <;> simp at hwf2 <;>
          first
            | exact coalesceGo_empty _
            | rfl
  -- conditional
  · refine ⟨?_, fun h => absurd h (by decide),
      fun h => absurd h (by decide), fun h => absurd h (by decide)⟩
    show ∃ r, (do
      let conds ← pyIter (sgetD cfg "conditions" (.list []))
      TransformEngine.conditionalGo .none [] [] conds) = .ok r
    have hwf2 : (match sget? cfg "conditions" with
        | Option.none => true
        | some (.list cs) => cs.all Val.isDict
        | some _ => false) = true := hwf
    cases hff : sget? cfg "conditions" with
    | none =>
        have hD : sgetD cfg "conditions" (.list []) = .list [] := by
          unfold sgetD dgetD
          unfold sget? at hff
          rw [hff]
          rfl
        rw [hD]
        exact ⟨.none, rfl⟩
    | some w =>
        rw [hff] at hwf2
        have hD : sgetD cfg "conditions" (.list []) = w := by
          unfold sgetD dgetD
          unfold sget? at hff
          rw [hff]
          rfl
        rw [hD]
        cases w <;> simp at hwf2
        case list cs =>
          obtain ⟨r, hr⟩ := conditionalGo_ok cs (by simpa using hwf2)
            .none [] []
          exact ⟨r, hr⟩
  -- tier_mapping
  · exact ⟨⟨.none, rfl⟩, fun _ => rfl, fun h => absurd h (by decide),
      fun h => absurd h (by decide)⟩
  -- negate_if_positive
  · exact ⟨⟨.none, rfl⟩, fun _ => rfl, fun h => absurd h (by decide),
      fun h => absurd h (by decide)⟩
  -- negate_if_negative
  · exact ⟨⟨.none, rfl⟩, fun _ => rfl, fun h => absurd h (by decide),
      fun h => absurd h (by decide)⟩
  -- iso_to_unix
  · exact ⟨⟨.none, rfl⟩, fun _ => rfl, fun h => absurd h (by decide),
      fun h => absurd h (by decide)⟩
  -- unix_to_iso
  · exact ⟨⟨.none, rfl⟩, fun _ => rfl, fun h => absurd h (by decide),
      fun h => absurd h (by decide)⟩
  -- multiply
  · exact ⟨⟨.none, rfl⟩, fun _ => rfl, fun h => absurd h (by decide),
      fun h => absurd h (by decide)⟩
  -- divide
  · exact ⟨⟨.none, rfl⟩, fun _ => rfl, fun h => absurd h (by decide),
      fun h => absurd h (by decide)⟩
  -- country_code
  · exact ⟨⟨.none, rfl⟩, fun _ => rfl, fun h => absurd h (by decide),
      fun h => absurd h (by decide)⟩
  -- clean_phone
  · exact ⟨⟨.none, rfl⟩, fun _ => rfl, fun h => absurd h (by decide),
      fun h => absurd h (by decide)⟩
  -- address_mapping
  · exact ⟨⟨.none, rfl⟩, fun _ => rfl, fun h => absurd h (by decide),
      fun h => absurd h (by decide)⟩
  -- lookup
  · exact ⟨⟨.none, rfl⟩, fun _ => rfl, fun h => absurd h (by decide),
      fun h => absurd h (by decide)⟩
  -- compile_metadata
  · refine ⟨⟨.none, ?_⟩, fun h => absurd h (by decide),
      fun h => absurd h (by decide), fun h => absurd h (by decide)⟩
    have hwf2 : (match sget? cfg "source_fields" with
        | Option.none => true
        | some (.dict _) => true
        | some _ => false) = true := hwf
    show TransformEngine.tCompileMetadata .none cfg [] [] = .ok .none
    unfold TransformEngine.tCompileMetadata
    cases hff : sget? cfg "source_fields" with
    | none =>
        have hD : sgetD cfg "source_fields" (.dict []) = .dict [] := by
          unfold sgetD dgetD
          unfold sget? at hff
          rw [hff]
          rfl
        rw [hD]
        rfl
    | some w =>
        rw [hff] at hwf2
        have hD : sgetD cfg "source_fields" (.dict []) = w := by
          unfold sgetD dgetD
          unfold sget? at hff
          rw [hff]
          rfl
        rw [hD]
        cases w <;> simp at hwf2
        case dict sf =>
          show (Except.bind
            (sf.foldlM (TransformEngine.compileStep []) ([] : Dct))
            (fun res =>
              pure (if res.isEmpty then Val.none else Val.dict res))) =
            .ok .none
          rw [foldlM_compileStep_empty sf []]
          rfl

/-- C8 witness: `enum_map` with the empty configuration returns the
configured default (here absent) on absent input, without raising. -/
theorem c8_absent_input_safety_witness :
    "enum_map" ∈ TransformEngine.builtinNames ∧
    TransformEngine.wfConfig "enum_map" [] = true ∧
    TransformEngine.applyBuiltin "enum_map" .none [] [] [] =
      .ok (sget [] "default") :=
  ⟨by simp [TransformEngine.builtinNames], rfl,
    (c8_absent_input_safety "enum_map" []
      (by simp [TransformEngine.builtinNames]) rfl).2.2.1 rfl⟩

/-! ## Mapping validation lemmas (C6) -/

theorem flatMap_ite_singleton {α β : Type} (l : List α) (p : α → Bool)
    (g : α → β) :
    (l.flatMap fun x => if p x then [g x] else []) = (l.filter p).map g := by
  induction l with
  | nil => rfl
  | cons x rest ih => by_cases h : p x <;> simp [List.filter, h, ih]

/-- C6: `validate_mapping` (with both schemas registered) emits one
`Required target field has no mapping` error for every required target
field no FieldMapping targets; when the declared source/target fields of
every mapping pass the schema checks and exactly one required target field
is unmapped, the whole result is exactly that one error, naming the
field. -/
theorem c6_required_target_errors (reg : SchemaRegistry.Registry)
    (m : EntityMapping) (ss ts : EntitySchema)
    (hss : SchemaRegistry.getEntitySchema reg m.source_service
      m.source_entity = some ss)
    (hts : SchemaRegistry.getEntitySchema reg m.target_service
      m.target_entity = some ts) :
    (∀ kv ∈ ts.fields, kv.2.required = true →
      m.field_mappings.all (fun fm => fm.target_field != kv.1) = true →
      ("Required target field has no mapping: " ++ kv.1) ∈
        SchemaRegistry.validateMapping reg m) ∧
    (∀ (missing : String) (fd : FieldDefinition),
      m.field_mappings.all (fmDeclOK ss ts) = true →
      ts.fields.filter (fun kv => kv.2.required &&
        !(m.field_mappings.any (fun fm => fm.target_field == kv.1))) =
        [(missing, fd)] →
      SchemaRegistry.validateMapping reg m =
        ["Required target field has no mapping: " ++ missing]) := by
  have hval : SchemaRegistry.validateMapping reg m =
      (m.field_mappings.flatMap fun fm =>
        (match fm.source_field with
          | some sf =>
              if sf ≠ "" && !(ss.fields.any (·.1 == sf)) then
                if !(ss.fields.any (·.1 == (pySplitOn sf ".").headD sf)) then
                  ["Source field not found: " ++ sf]
                else []
              else []
          | Option.none => []) ++
        (if fm.target_field ≠ "" then
          if !(ts.fields.any
                (·.1 == (pySplitOn fm.target_field ".").headD
                  fm.target_field)) &&
              !strStartsWith fm.target_field "meta_data" then
            ["Target field not found: " ++ fm.target_field]
          else []
        else [])) ++
      (ts.fields.flatMap fun kv =>
        if kv.2.required &&
            !(m.field_mappings.any (·.target_field == kv.1)) then
          ["Required target field has no mapping: " ++ kv.1]
        else []) := by
    unfold SchemaRegistry.validateMapping
    rw [hss, hts]
    simp
  constructor
  · intro kv hkv hreq hall
    rw [hval]
    refine List.mem_append_right _ ?_
    rw [List.mem_flatMap]
    refine ⟨kv, hkv, ?_⟩
    have hany : (m.field_mappings.any (·.target_field == kv.1)) = false := by
      rw [List.all_eq_true] at hall
      rw [List.any_eq_false]
      intro fm hfm
      simpa using hall fm hfm
    simp [hreq, hany]
  · intro missing fd hdecl hfilter
    rw [hval]
    have hfms : (m.field_mappings.flatMap fun fm =>
        (match fm.source_field with
          | some sf =>
              if sf ≠ "" && !(ss.fields.any (·.1 == sf)) then
                if !(ss.fields.any (·.1 == (pySplitOn sf ".").headD sf)) then
                  ["Source field not found: " ++ sf]
                else []
              else []
          | Option.none => []) ++
        (if fm.target_field ≠ "" then
          if !(ts.fields.any
                (·.1 == (pySplitOn fm.target_field ".").headD
                  fm.target_field)) &&
              !strStartsWith fm.target_field "meta_data" then
            ["Target field not found: " ++ fm.target_field]
          else []
        else [])) = [] := by
      rw [List.flatMap_eq_nil_iff]
      intro fm hfm
      rw [List.all_eq_true] at hdecl
      have hok := hdecl fm hfm
      unfold fmDeclOK at hok
      rw [Bool.and_eq_true] at hok
      obtain ⟨hsrc, htgt⟩ := hok
      rw [List.append_eq_nil]
      constructor
      · cases hsf : fm.source_field with
        | none => simp [hsf]
        | some sf =>
            rw [hsf] at hsrc
            simp only [Bool.or_eq_true, beq_iff_eq] at hsrc
            rcases hsrc with (rfl | h) | h
            · simp [hsf]
            · simp [hsf, h]
            · simp only [hsf, h]
              simp
      · simp only [Bool.or_eq_true, beq_iff_eq] at htgt
        rcases htgt with (h | h) | h
        · simp [h]
        · simp only [h]
          simp
        · simp [h]
    rw [hfms, List.nil_append, flatMap_ite_singleton, hfilter]
    rfl

/-- C6 witness: a mapping covering `email` but missing the required
`company` yields exactly one error naming `company`. -/
theorem c6_required_target_errors_witness :
    SchemaRegistry.validateMapping w6reg w6mapping =
      ["Required target field has no mapping: company"] :=
  (c6_required_target_errors w6reg w6mapping w6source w6target rfl rfl).2
    "company" (simpleField "company" .string true) rfl rfl

/-- C10: in `_validate_type`, a boolean value is rejected with a type error
for fields declared `integer`, `decimal` or `currency`, but passes the
`timestamp` check (Python `bool` being an `int` subclass) and yields no
error there. -/
theorem c10_boolean_type_validation (fieldName : String) (b : Bool) :
    ((RecordValidator.validateType fieldName (.bool b) .integer).map
        (·.error_type) = some "type") ∧
    ((RecordValidator.validateType fieldName (.bool b) .decimal).map
        (·.error_type) = some "type") ∧
    ((RecordValidator.validateType fieldName (.bool b) .currency).map
        (·.error_type) = some "type") ∧
    RecordValidator.validateType fieldName (.bool b) .timestamp =
      Option.none := by
  cases b <;> exact ⟨rfl, rfl, rfl, rfl⟩

/-- C2 (code bug): `validate_record` reports nothing at all for an
unknown record field when `strict` is false — the whole unknown-field sweep
is gated on `if strict:` — although the docstring (and the severity
expression inside the sweep) promise a warning; in strict mode the same
field is reported with severity `error`. -/
theorem c2_nonstrict_unknown_field_unreported :
    RecordValidator.validateRecord c2record c2schema false = [] ∧
    RecordValidator.validateRecord c2record c2schema true =
      [{ field := "extra"
         message := "Unknown field in target schema: extra"
         severity := "error" }] := by
  constructor <;>
    simp [RecordValidator.validateRecord, RecordValidator.validateField,
      RecordValidator.getNestedV, RecordValidator.getNestedGoV,
      RecordValidator.getAllFieldPaths,
      c2record, c2schema, simpleField, pySplitOn, splitFuel, isPrefixList,
      sget, dget, dget?, pyEq, pyStr, reprV, strStartsWith, Val.isNone]

/-- C3 counterexample: for a record from service `"Stripe"`, the path
`"Stripe.email"` names the service case-insensitively, yet the scoped lookup
keys the (verbatim-keyed) payload map with the lower-cased segment, misses,
and returns absent — not the value sitting in that service's payload. -/
theorem c3_counterexample :
    TransformEngine.getSourceValue (some "Stripe.email") [c3record]
        (TransformEngine.combinedData [c3record]) = Val.none ∧
    lowerStr "Stripe" = lowerStr c3record.source_service ∧
    TransformEngine.getNestedValue (.dict c3record.data) "email" =
      .str "x@y.com" ∧
    Val.none ≠ Val.str "x@y.com" :=
  ⟨rfl, rfl, rfl, fun h => Val.noConfusion h⟩

/-- C5 counterexample: the only field mapping targets `"id"` (transform
`direct`) from a field the record lacks; the claim's id — the transform
applied to the resolved (absent) value — is absent, but the code falls back
to the synthesized `"{service}_{id}"`. -/
theorem c5_counterexample :
    TransformEngine.generateTargetId [c5record] c5mapping =
      .ok (.str "stripe_s1") ∧
    TransformEngine.tDirect
        (TransformEngine.getSourceValue (some "missing_field") [c5record] [])
        [] [] [] = .ok Val.none ∧
    Val.str "stripe_s1" ≠ Val.none :=
  ⟨rfl, rfl, fun h => Val.noConfusion h⟩

/-- C7 counterexample: the first mapping writes the scalar `1` at `a`; the
second mapping's operator name is unknown, so the engine falls back to an
identity copy with a warning — but its nested write to `a.b` then fails on
the scalar at `a`, and a transform error IS recorded for that field
mapping. -/
theorem c7_counterexample :
    (TransformEngine.transformRecord [] [c7record] c7mapping "chargebee"
        "customer" []).map
      (fun r => (r.validation_errors.map (·.field), r.warnings)) =
    .ok (["a.b"], ["Unknown transform: bogus_op, using direct copy"]) := rfl

/-- C9 counterexample: at `t = 300000000000` (year ≈ 11476, beyond
`datetime`'s year-9999 ceiling) `unix_to_iso` swallows the overflow and
yields absent, so the round trip returns absent, not `t`. -/
theorem c9_counterexample :
    ((TransformEngine.tUnixToIso (.int 300000000000) [] [] []).bind
        (fun s => TransformEngine.tIsoToUnix s [] [] [])) = .ok Val.none ∧
    Val.none ≠ Val.int 300000000000 :=
  ⟨rfl, fun h => Val.noConfusion h⟩

/-- C8 counterexample: the `conditional` operator raises a `TypeError` even
on an absent input when its `conditions` configuration entry is not iterable
(here the integer `0`): the configuration is read and iterated before the
input value is consulted, refuting the claim for arbitrary configurations. -/
theorem c8_counterexample :
    TransformEngine.applyBuiltin "conditional" Val.none
      [(.str "conditions", .int 0)] [] [] =
      .error "TypeError: object is not iterable" := rfl

/-- C1 counterexample: two records share the dedup key `a@x.com`; the
later-seen one comes from the preferred source `stripe`.  The stripe record
is kept, but `new_meta.update(existing_meta)` lets the losing record's
`meta_data` key overwrite the winner's: the surviving value under `k` is the
loser's `"loser"`, not the winner's `"winner"`. -/
theorem c1_counterexample :
    (Orchestrator.dedupEntity "email" "stripe" [c1loser, c1winner]).map
        (fun r => (Orchestrator.firstSourceService r,
          TransformEngine.getNestedValue (.dict r.data) "meta_data.k")) =
      [("stripe", Val.str "loser")] ∧
    Val.str "loser" ≠ Val.str "winner" := by
  refine ⟨rfl, fun h => ?_⟩
  injection h with h2
  exact absurd h2 (by decide)

end SmoothExit
